import Mathlib

/-!
Verification development for the `runner` service: a shallow embedding of
`src/run.rs` (execution engine) and `src/main.rs` (HTTP handler and logging),
together with proofs of the specified properties.

Modelling conventions:
* Filesystem paths are represented as lists of raw path segments, i.e. the
  result of splitting the textual path on `/`.  A file name coming from a
  request is kept as a `String` and split with `segs` (mirroring how Rust's
  `Path::components` walks the slash-separated pieces).
* All interactions with the operating system (directory creation, file
  writes, spawning, waiting, the timeout race, workspace removal) are
  mediated by an oracle `Env` that fixes the outcome of each OS call, and
  the engine additionally records a trace of `Event`s so that ordering
  properties ("no process is spawned", "removal happens exactly once, last")
  can be stated.
* Machine integers (`u64`, `u32`, `u128`) only flow through names and
  comparisons here, so they are modelled as `Nat`; no arithmetic in the
  source can overflow into behaviour the claims mention.
-/

namespace Runner

/-- RunRequest from `run.rs`: the `files` map is modelled as an association
list in iteration order (the Rust `HashMap` iterates in some order). -/
structure RunRequest where
  files : List (String × String)
  command : String
  timeout_seconds : Nat
  deriving DecidableEq, Repr

/-- RunResponse from `run.rs`. -/
structure RunResponse where
  stdout : String
  stderr : String
  error : String
  deriving DecidableEq, Repr

/-- OkRunResponse from `run.rs`. -/
structure OkRunResponse where
  stdout : String
  stderr : String
  deriving DecidableEq, Repr

/-- Errors that `do_run` can produce, mirroring the `anyhow::Error` values
built in `run.rs`.  Environment-supplied messages model the `Display` text of
the underlying `std::io::Error`s. -/
inductive RunError where
  | invalidFileName
  | ioErr (msg : String)
  | spawnErr (msg : String)
  | timedOut (seconds : Nat) (stderrText : String)
  deriving DecidableEq, Repr

/-- Display of a `RunError`, mirroring `error.to_string()` on the
corresponding `anyhow::Error` in `run.rs`. -/
def RunError.render : RunError → String
  | .invalidFileName => "invalid file name: must be a relative path without '..'"
  | .ioErr msg => msg
  | .spawnErr msg => msg
  | .timedOut s t => "timed out after " ++ toString s ++ " seconds\n" ++ t

/-- Outcome of one `fs::create_dir` call in `create_unique_temp_dir`; the
message is the `Display` text of the `io::Error` if any. -/
inductive CreateDirOutcome where
  | ok
  | alreadyExists (msg : String)
  | otherErr (msg : String)
  deriving DecidableEq, Repr

/-- Stdio configuration of the spawned command, as in `std::process::Stdio`. -/
inductive StdioCfg where
  | inherit
  | piped
  | null
  deriving DecidableEq, Repr

/-- The command configuration assembled by `do_run` before `spawn`, mirroring
the builder calls on `tokio::process::Command`. -/
structure CmdConfig where
  program : String
  args : List String
  currentDir : Option (List String)
  stdinCfg : StdioCfg
  stdoutCfg : StdioCfg
  stderrCfg : StdioCfg
  newSession : Bool
  deriving DecidableEq, Repr

/-- The `Command` value built in `do_run`: `bash -lc <command>`, current dir
the workspace, stdout and stderr piped, a fresh session via the `setsid`
pre-exec hook.  Stdin is left at the builder default, which for `spawn` is
inherited from the parent process. -/
def buildCommand (command : String) (ws : List String) : CmdConfig :=
  { program := "bash"
    args := ["-lc", command]
    currentDir := some ws
    stdinCfg := .inherit
    stdoutCfg := .piped
    stderrCfg := .piped
    newSession := true }

/-- Observable OS-level actions of one `do_run` invocation, recorded in
order. -/
inductive Event where
  | mkdirAttempt (path : List String)
  | mkdirAll (path : List String)
  | fileWrite (path : List String)
  | spawned (cfg : CmdConfig)
  | sigkillGroup (pgid : Int)
  | killChild
  | waitChild
  | removeWorkspace (path : List String) (ok : Bool)
  deriving DecidableEq, Repr

/-- Oracle fixing the outcome of every OS interaction of one request. -/
structure Env where
  tempRoot : List String
  pid : Nat
  timestampNanos : Nat
  createDir : Nat → CreateDirOutcome
  mkdirAll : List String → Option String
  writeFile : List String → String → Option String
  spawnResult : Option String
  childPid : Nat
  waitResult : Option String
  exitStatus : Nat
  exitsInTime : Bool
  stdoutBytes : List Nat
  stderrBytes : List Nat
  removeOk : Bool

/-! ### Path handling (`sanitize_and_join` and its helpers) -/

/-- Split a character list at `/` separators, keeping empty segments, as the
textual decomposition of a Unix path. -/
def splitSlash : List Char → List (List Char)
  | [] => [[]]
  | c :: rest =>
    if c = '/' then [] :: splitSlash rest
    else
      match splitSlash rest with
      | [] => [[c]]
      | s :: tl => (c :: s) :: tl

/-- Raw slash-separated segments of a path string. -/
def segs (s : String) : List String := (splitSlash s.data).map String.mk

/-- Unix `Path::is_absolute`: the path has a root, i.e. starts with `/`. -/
def isAbsolute (s : String) : Bool :=
  match s.data with
  | [] => false
  | c :: _ => c = '/'

/-- The rejection test of `sanitize_and_join`: absolute, or some component is
the parent directory `..` (Rust `Component::ParentDir`). -/
def invalidName (name : String) : Bool :=
  isAbsolute name || (segs name).any (fun p => p = "..")

/-- sanitize_and_join from `run.rs`: reject absolute names and names with a
`..` component, otherwise `base.join(candidate)`. -/
def sanitize_and_join (base : List String) (name : String) :
    Except RunError (List String) :=
  if invalidName name then .error .invalidFileName
  else .ok (base ++ segs name)

/-- One step of Unix path resolution over raw segments: skip empty and `.`
segments, let `..` drop the last resolved segment, append normal segments. -/
def resolveParts : List String → List String → List String
  | acc, [] => acc
  | acc, p :: rest =>
    if p = "" || p = "." then resolveParts acc rest
    else if p = ".." then resolveParts acc.dropLast rest
    else resolveParts (acc ++ [p]) rest

/-- Resolved (normalized) form of a raw-segment path. -/
def resolve (p : List String) : List String := resolveParts [] p

/-- The segments of a name that survive resolution when no `..` is present. -/
def realSegs (l : List String) : List String :=
  l.filter (fun p => !(p = "" || p = "."))

/-- A raw segment that resolution keeps verbatim. -/
def normalSeg (p : String) : Prop := p ≠ "" ∧ p ≠ "." ∧ p ≠ ".."

instance normalSegDecidable (p : String) : Decidable (normalSeg p) :=
  inferInstanceAs (Decidable (p ≠ "" ∧ p ≠ "." ∧ p ≠ ".."))

/-- Predicate: `p` resolves at or below directory `base`. -/
def withinDir (base p : List String) : Prop :=
  ∃ rest, resolve p = base ++ rest

/-- Predicate: `p` resolves strictly below directory `base`. -/
def strictlyWithin (base p : List String) : Prop :=
  ∃ rest, rest ≠ [] ∧ resolve p = base ++ rest

/-- Rust `Path::parent` on our segment representation: drop empty and `.`
segments, then remove the final component; `none` when there is no
component. -/
def parentDir (p : List String) : Option (List String) :=
  match p.filter (fun s => !(s = "" || s = ".")) with
  | [] => none
  | l => some l.dropLast

/-! ### Workspace creation (`create_unique_temp_dir`) -/

/-- Candidate directory name for attempt `counter`:
`runner-{pid}-{timestamp}` first, then `runner-{pid}-{timestamp}-{counter}`. -/
def candidateName (pid ts counter : Nat) : String :=
  if counter = 0 then "runner-" ++ toString pid ++ "-" ++ toString ts
  else "runner-" ++ toString pid ++ "-" ++ toString ts ++ "-" ++ toString counter

/-- The retry loop of `create_unique_temp_dir`.  The source counts a counter
up from 0 and retries while `counter < 10`; here `left = 10 - counter` counts
the remaining retries down so that the recursion is structural.  Each
iteration attempts `fs::create_dir` on the candidate for the current counter:
success returns the candidate, `AlreadyExists` retries with the next counter
while retries remain, and any other error (or exhaustion) returns the
underlying error. -/
def createLoopDown (cd : Nat → CreateDirOutcome) (root : List String)
    (pid ts : Nat) : Nat → Except RunError (List String) × List Event
  | 0 =>
    match cd 10 with
    | .ok =>
      (.ok (root ++ [candidateName pid ts 10]),
        [.mkdirAttempt (root ++ [candidateName pid ts 10])])
    | .alreadyExists msg =>
      (.error (.ioErr msg), [.mkdirAttempt (root ++ [candidateName pid ts 10])])
    | .otherErr msg =>
      (.error (.ioErr msg), [.mkdirAttempt (root ++ [candidateName pid ts 10])])
  | l + 1 =>
    match cd (10 - (l + 1)) with
    | .ok =>
      (.ok (root ++ [candidateName pid ts (10 - (l + 1))]),
        [.mkdirAttempt (root ++ [candidateName pid ts (10 - (l + 1))])])
    | .alreadyExists _ =>
      ((createLoopDown cd root pid ts l).1,
        .mkdirAttempt (root ++ [candidateName pid ts (10 - (l + 1))]) ::
          (createLoopDown cd root pid ts l).2)
    | .otherErr msg =>
      (.error (.ioErr msg), [.mkdirAttempt (root ++ [candidateName pid ts (10 - (l + 1))])])

/-- create_unique_temp_dir from `run.rs`: run the retry loop starting at
counter 0 (10 retries remaining). -/
def create_unique_temp_dir (env : Env) : Except RunError (List String) × List Event :=
  createLoopDown env.createDir env.tempRoot env.pid env.timestampNanos 10

/-! ### Lossy UTF-8 decoding (`String::from_utf8_lossy`) -/

/-- The replacement character U+FFFD. -/
def repl : Char := Char.ofNat 0xFFFD

/-- A UTF-8 continuation byte. -/
def isCont (b : Nat) : Bool := 0x80 ≤ b && b ≤ 0xBF

/-- Admissible second byte of a multi-byte sequence (the restricted ranges
exclude overlong encodings, surrogates and out-of-range code points). -/
def cont2Ok (b0 b1 : Nat) : Bool :=
  if b0 = 0xE0 then 0xA0 ≤ b1 && b1 ≤ 0xBF
  else if b0 = 0xED then 0x80 ≤ b1 && b1 ≤ 0x9F
  else if b0 = 0xF0 then 0x90 ≤ b1 && b1 ≤ 0xBF
  else if b0 = 0xF4 then 0x80 ≤ b1 && b1 ≤ 0x8F
  else isCont b1

/-- Code point of a decoded 1-byte sequence. -/
def char1 (b0 : Nat) : Char := Char.ofNat b0

/-- Code point of a decoded 2-byte sequence. -/
def char2 (b0 b1 : Nat) : Char := Char.ofNat ((b0 - 0xC0) * 0x40 + (b1 - 0x80))

/-- Code point of a decoded 3-byte sequence. -/
def char3 (b0 b1 b2 : Nat) : Char :=
  Char.ofNat ((b0 - 0xE0) * 0x1000 + (b1 - 0x80) * 0x40 + (b2 - 0x80))

/-- Code point of a decoded 4-byte sequence. -/
def char4 (b0 b1 b2 b3 : Nat) : Char :=
  Char.ofNat ((b0 - 0xF0) * 0x40000 + (b1 - 0x80) * 0x1000 + (b2 - 0x80) * 0x40 + (b3 - 0x80))

/-- Lossy UTF-8 decoding with the "substitution of maximal subparts" policy
of `String::from_utf8_lossy`: a valid sequence becomes its code point, an
invalid one becomes one U+FFFD per maximal prefix of a valid sequence, and
decoding resumes at the first offending byte. -/
def lossyAux : List Nat → List Char
  | [] => []
  | b0 :: r0 =>
    if b0 < 0x80 then char1 b0 :: lossyAux r0
    else if 0xC2 ≤ b0 && b0 ≤ 0xDF then
      match _hm : r0 with
      | [] => [repl]
      | b1 :: r1 =>
        if isCont b1 then char2 b0 b1 :: lossyAux r1 else repl :: lossyAux r0
    else if 0xE0 ≤ b0 && b0 ≤ 0xEF then
      match _hm : r0 with
      | [] => [repl]
      | b1 :: r1 =>
        if cont2Ok b0 b1 then
          match _hn : r1 with
          | [] => [repl]
          | b2 :: r2 =>
            if isCont b2 then char3 b0 b1 b2 :: lossyAux r2 else repl :: lossyAux r1
        else repl :: lossyAux r0
    else if 0xF0 ≤ b0 && b0 ≤ 0xF4 then
      match _hm : r0 with
      | [] => [repl]
      | b1 :: r1 =>
        if cont2Ok b0 b1 then
          match _hn : r1 with
          | [] => [repl]
          | b2 :: r2 =>
            if isCont b2 then
              match _ho : r2 with
              | [] => [repl]
              | b3 :: r3 =>
                if isCont b3 then char4 b0 b1 b2 b3 :: lossyAux r3
                else repl :: lossyAux r2
            else repl :: lossyAux r1
        else repl :: lossyAux r0
    else repl :: lossyAux r0
termination_by l => l.length
decreasing_by all_goals simp_all +arith [List.length]

/-- String::from_utf8_lossy(...).to_string(). -/
def lossyDecode (bs : List Nat) : String := String.mk (lossyAux bs)

/-- Validity of a byte list as UTF-8, with the same sequence structure as
`lossyAux`. -/
def validUtf8 : List Nat → Bool
  | [] => true
  | b0 :: r0 =>
    if b0 < 0x80 then validUtf8 r0
    else if 0xC2 ≤ b0 && b0 ≤ 0xDF then
      match _hm : r0 with
      | [] => false
      | b1 :: r1 => if isCont b1 then validUtf8 r1 else false
    else if 0xE0 ≤ b0 && b0 ≤ 0xEF then
      match _hm : r0 with
      | [] => false
      | b1 :: r1 =>
        if cont2Ok b0 b1 then
          match _hn : r1 with
          | [] => false
          | b2 :: r2 => if isCont b2 then validUtf8 r2 else false
        else false
    else if 0xF0 ≤ b0 && b0 ≤ 0xF4 then
      match _hm : r0 with
      | [] => false
      | b1 :: r1 =>
        if cont2Ok b0 b1 then
          match _hn : r1 with
          | [] => false
          | b2 :: r2 =>
            if isCont b2 then
              match _ho : r2 with
              | [] => false
              | b3 :: r3 => if isCont b3 then validUtf8 r3 else false
            else false
        else false
    else false
termination_by l => l.length
decreasing_by all_goals simp_all +arith [List.length]

/-! ### File materialization and the inner run -/

/-- The file-materialization loop of `do_run`: for each `(name, content)`
entry, sanitize and join the name, create the parent directories, then write
the file; the first failure aborts the remaining entries. -/
def materialize (mkd : List String → Option String)
    (wr : List String → String → Option String) (ws : List String) :
    List (String × String) → Except RunError Unit × List Event
  | [] => (.ok (), [])
  | (name, content) :: rest =>
    match sanitize_and_join ws name with
    | .error e => (.error e, [])
    | .ok path =>
      match parentDir path with
      | some pd =>
        match mkd pd with
        | some msg => (.error (.ioErr msg), [.mkdirAll pd])
        | none =>
          match wr path content with
          | some msg => (.error (.ioErr msg), [.mkdirAll pd, .fileWrite path])
          | none =>
            ((materialize mkd wr ws rest).1,
              .mkdirAll pd :: .fileWrite path :: (materialize mkd wr ws rest).2)
      | none =>
        match wr path content with
        | some msg => (.error (.ioErr msg), [.fileWrite path])
        | none =>
          ((materialize mkd wr ws rest).1,
            .fileWrite path :: (materialize mkd wr ws rest).2)

/-- The plain wait on the child (`child.wait().await?` followed by joining
the drain tasks and lossy-decoding their buffers). -/
def waitStage (env : Env) : Except RunError OkRunResponse × List Event :=
  match env.waitResult with
  | some msg => (.error (.ioErr msg), [.waitChild])
  | none =>
    (.ok { stdout := lossyDecode env.stdoutBytes
           stderr := lossyDecode env.stderrBytes },
      [.waitChild])

/-- The deadline-expired branch: SIGKILL the process group `-pid` (when the
child pid is known and positive), kill and reap the direct child, join the
drain tasks, and fail with the timeout error carrying the captured stderr. -/
def timeoutStage (env : Env) (req : RunRequest) :
    Except RunError OkRunResponse × List Event :=
  (.error (.timedOut req.timeout_seconds (lossyDecode env.stderrBytes)),
    (if env.childPid > 0 then [Event.sigkillGroup (-(env.childPid : Int))] else []) ++
      [.killChild, .waitChild])

/-- The supervision step after a successful spawn: wait unconditionally when
`timeout_seconds` is zero, otherwise race the wait against the deadline. -/
def superviseStage (env : Env) (req : RunRequest) :
    Except RunError OkRunResponse × List Event :=
  if req.timeout_seconds > 0 then
    if env.exitsInTime then waitStage env
    else timeoutStage env req
  else waitStage env

/-- The inner `async` block of `do_run`: materialize the files, spawn the
command, then supervise the wait/timeout race. -/
def runInner (env : Env) (req : RunRequest) (ws : List String) :
    Except RunError OkRunResponse × List Event :=
  match materialize env.mkdirAll env.writeFile ws req.files with
  | (.error e, evs) => (.error e, evs)
  | (.ok _, evs) =>
    match env.spawnResult with
    | some msg => (.error (.spawnErr msg), evs)
    | none =>
      ((superviseStage env req).1,
        evs ++ Event.spawned (buildCommand req.command ws) :: (superviseStage env req).2)

/-- do_run from `run.rs`: create the workspace, run the inner attempt, and
always remove the workspace afterwards (ignoring the removal outcome). -/
def do_run (env : Env) (req : RunRequest) :
    Except RunError OkRunResponse × List Event :=
  match create_unique_temp_dir env with
  | (.error e, evs) => (.error e, evs)
  | (.ok ws, evs) =>
    ((runInner env req ws).1,
      evs ++ (runInner env req ws).2 ++ [.removeWorkspace ws env.removeOk])

/-- run from `run.rs`: flatten the `do_run` result into the uniform response
shape. -/
def run (env : Env) (req : RunRequest) : RunResponse :=
  match (do_run env req).1 with
  | .ok r => { stdout := r.stdout, stderr := r.stderr, error := "" }
  | .error e => { stdout := "", stderr := "", error := e.render }

/-- Recognize the workspace-removal event. -/
def isRemoveEv : Event → Bool
  | .removeWorkspace _ _ => true
  | _ => false

/-- Well-formedness of the OS oracle: every error message the OS hands back
is non-empty (the `Display` text of a `std::io::Error` is never empty). -/
def Env.WF (env : Env) : Prop :=
  (∀ n msg, env.createDir n = .alreadyExists msg → msg ≠ "") ∧
  (∀ n msg, env.createDir n = .otherErr msg → msg ≠ "") ∧
  (∀ p msg, env.mkdirAll p = some msg → msg ≠ "") ∧
  (∀ p c msg, env.writeFile p c = some msg → msg ≠ "") ∧
  (∀ msg, env.spawnResult = some msg → msg ≠ "") ∧
  (∀ msg, env.waitResult = some msg → msg ≠ "")

/-! ### The HTTP layer (`main.rs`): logging and the request handler -/

/-- LogEntry from `main.rs`. -/
structure LogEntry where
  request : RunRequest
  response : RunResponse
  deriving DecidableEq, Repr

/-- Lower-case hexadecimal digit (also used for decimal digits below 10). -/
def hexDigit (n : Nat) : Char :=
  if n < 10 then Char.ofNat (48 + n) else Char.ofNat (87 + n)

/-- JSON string escaping of one character, as `serde_json` performs it:
quote and backslash are escaped, control characters use the short escapes or
`\u00XX`, everything else is passed through. -/
def jsonEscapeChar (c : Char) : List Char :=
  if c = '"' then ['\\', '"']
  else if c = '\\' then ['\\', '\\']
  else if c = '\n' then ['\\', 'n']
  else if c = '\t' then ['\\', 't']
  else if c = '\r' then ['\\', 'r']
  else if c.toNat = 8 then ['\\', 'b']
  else if c.toNat = 12 then ['\\', 'f']
  else if c.toNat < 32 then
    ['\\', 'u', '0', '0', hexDigit (c.toNat / 16), hexDigit (c.toNat % 16)]
  else [c]

/-- A JSON string literal for `s`. -/
def jsonStr (s : String) : String :=
  String.mk ('"' :: (s.data.map jsonEscapeChar).flatten ++ ['"'])

/-- Comma-separated concatenation. -/
def joinComma : List String → String
  | [] => ""
  | [x] => x
  | x :: y :: rest => x ++ "," ++ joinComma (y :: rest)

/-- Decimal digits of `n`, driven by a fuel bounded by the number itself. -/
def natDigits : Nat → Nat → List Char
  | 0, _ => []
  | fuel + 1, n =>
    if n < 10 then [hexDigit n]
    else natDigits fuel (n / 10) ++ [hexDigit (n % 10)]

/-- Decimal rendering of a natural number, as `serde_json` writes a `u64`. -/
def natToString (n : Nat) : String := String.mk (natDigits (n + 1) n)

/-- JSON object for the `files` map, in iteration order. -/
def jsonFiles (files : List (String × String)) : String :=
  "\x7b" ++ joinComma (files.map (fun nc => jsonStr nc.1 ++ ":" ++ jsonStr nc.2)) ++ "\x7d"

/-- JSON serialization of a RunRequest (serde field order). -/
def renderRunRequest (r : RunRequest) : String :=
  "\x7b" ++ jsonStr "files" ++ ":" ++ jsonFiles r.files ++ "," ++
    jsonStr "command" ++ ":" ++ jsonStr r.command ++ "," ++
    jsonStr "timeout_seconds" ++ ":" ++ natToString r.timeout_seconds ++ "\x7d"

/-- JSON serialization of a RunResponse (serde field order). -/
def renderRunResponse (r : RunResponse) : String :=
  "\x7b" ++ jsonStr "stdout" ++ ":" ++ jsonStr r.stdout ++ "," ++
    jsonStr "stderr" ++ ":" ++ jsonStr r.stderr ++ "," ++
    jsonStr "error" ++ ":" ++ jsonStr r.error ++ "\x7d"

/-- JSON serialization of a LogEntry, i.e. `serde_json::to_string(&entry)`. -/
def renderLogEntry (e : LogEntry) : String :=
  "\x7b" ++ jsonStr "request" ++ ":" ++ renderRunRequest e.request ++ "," ++
    jsonStr "response" ++ ":" ++ renderRunResponse e.response ++ "\x7d"

/-- Oracle for one HTTP request: the engine oracle plus the outcome of the
log append (`none` = success, `some msg` = the failure's display text). -/
structure HttpEnv where
  runEnv : Env
  logOutcome : Option String

/-- log_entry from `main.rs`: serialize the entry and append it, plus a
newline, to the log file; the file is modelled as its list of lines. -/
def log_entry (outcome : Option String) (logFile : List String)
    (entry : LogEntry) : Except String Unit × List String :=
  match outcome with
  | some msg => (.error msg, logFile)
  | none => (.ok (), logFile ++ [renderLogEntry entry])

/-- handle_run from `main.rs`: run the request, log the (request, response)
pair, overwrite the response with the logging error if logging failed, and
answer with HTTP 200 in both cases. -/
def handle_run (he : HttpEnv) (logFile : List String) (req : RunRequest) :
    (Nat × RunResponse) × List String :=
  let response := run he.runEnv req
  match log_entry he.logOutcome logFile { request := req, response := response } with
  | (.ok _, logFile2) => ((200, response), logFile2)
  | (.error e, logFile2) =>
    ((200, { stdout := "", stderr := "", error := e }), logFile2)

/-! ### Predicates used to state the claims -/

/-- The uniform response shape: success carries the captured output and an
empty error; failure carries a non-empty error and empty output fields. -/
def responseShape (r : RunResponse) (d : Except RunError OkRunResponse) : Prop :=
  (r.error = "" ∧ ∃ okr, d = .ok okr ∧ r.stdout = okr.stdout ∧ r.stderr = okr.stderr) ∨
  (r.error ≠ "" ∧ r.stdout = "" ∧ r.stderr = "")

/-- A string that contains no newline character. -/
def nlFree (s : String) : Prop := '\n' ∉ s.data

instance nlFreeDecidable (s : String) : Decidable (nlFree s) :=
  inferInstanceAs (Decidable ('\n' ∉ s.data))

/-! ### Concrete oracles used by the witnesses -/

/-- An oracle on which every OS interaction succeeds. -/
def envOk : Env :=
  { tempRoot := ["tmp"], pid := 7, timestampNanos := 3,
    createDir := fun _ => .ok, mkdirAll := fun _ => none,
    writeFile := fun _ _ => none, spawnResult := none, childPid := 42,
    waitResult := none, exitStatus := 2, exitsInTime := true,
    stdoutBytes := [104, 105], stderrBytes := [255], removeOk := true }

/-- The oracle on which the child never finishes before the deadline. -/
def envHang : Env :=
  { envOk with exitsInTime := false, stderrBytes := [119] }

/-- An oracle on which every directory-creation attempt collides. -/
def envBusy : Env :=
  { envOk with createDir := fun _ => .alreadyExists "File exists (os error 17)" }

/-- A request with no files and no timeout. -/
def reqEmpty : RunRequest :=
  { files := [], command := "true", timeout_seconds := 0 }

/-- A request with no files and a 5-second timeout. -/
def reqT : RunRequest :=
  { files := [], command := "sleep 99", timeout_seconds := 5 }

/-- A request containing a traversal file name. -/
def reqBad : RunRequest :=
  { files := [("../evil", "x")], command := "true", timeout_seconds := 0 }

/-- An HTTP oracle whose log append succeeds. -/
def httpOk : HttpEnv := { runEnv := envOk, logOutcome := none }

/-- An HTTP oracle whose log append fails. -/
def httpBad : HttpEnv := { runEnv := envOk, logOutcome := some "No space left on device (os error 28)" }

/-! ### Basic lemmas about strings and path resolution -/

/-- Data of an appended string. -/
theorem append_data (a b : String) : (a ++ b).data = a.data ++ b.data :=
  String.data_append a b

/-- Length of an appended string. -/
theorem append_length (a b : String) : (a ++ b).length = a.length + b.length :=
  String.length_append a b

/-- Resolution ignores an empty or `.` head segment. -/
theorem resolveParts_skip (acc : List String) (p : String) (rest : List String)
    (h : p = "" ∨ p = ".") :
    resolveParts acc (p :: rest) = resolveParts acc rest := by
  rcases h with h | h <;> subst h <;> rfl

/-- Resolution of a `..` head segment drops the last resolved segment. -/
theorem resolveParts_up (acc : List String) (rest : List String) :
    resolveParts acc (".." :: rest) = resolveParts acc.dropLast rest := rfl

/-- Resolution appends a normal head segment. -/
theorem resolveParts_norm (acc : List String) (p : String) (rest : List String)
    (h : normalSeg p) :
    resolveParts acc (p :: rest) = resolveParts (acc ++ [p]) rest := by
  rcases h with ⟨h1, h2, h3⟩
  rw [resolveParts]
  simp [h1, h2, h3]

/-- Resolution processes an appended segment list left to right. -/
theorem resolveParts_append (l1 l2 : List String) :
    ∀ acc, resolveParts acc (l1 ++ l2) = resolveParts (resolveParts acc l1) l2 := by
  induction l1 with
  | nil => intro acc; rfl
  | cons p rest ih =>
    intro acc
    by_cases hE : p = "" ∨ p = "."
    · rw [List.cons_append, resolveParts_skip _ p _ hE, resolveParts_skip _ p _ hE, ih]
    · by_cases hD : p = ".."
      · subst hD
        rw [List.cons_append, resolveParts_up, resolveParts_up, ih]
      · push_neg at hE
        rw [List.cons_append, resolveParts_norm _ p _ ⟨hE.1, hE.2, hD⟩,
          resolveParts_norm _ p _ ⟨hE.1, hE.2, hD⟩, ih]

/-- Real segments of a list starting with an empty or `.` segment. -/
theorem realSegs_skip (p : String) (rest : List String) (h : p = "" ∨ p = ".") :
    realSegs (p :: rest) = realSegs rest := by
  rcases h with h | h <;> subst h <;> simp [realSegs]

/-- Real segments of a list starting with a kept segment. -/
theorem realSegs_keep (p : String) (rest : List String) (h1 : p ≠ "") (h2 : p ≠ ".") :
    realSegs (p :: rest) = p :: realSegs rest := by
  simp [realSegs, List.filter_cons, h1, h2]

/-- Resolution of a parent-free segment list appends its real segments. -/
theorem resolveParts_no_parent (l : List String) (h : ∀ p ∈ l, p ≠ "..") :
    ∀ acc, resolveParts acc l = acc ++ realSegs l := by
  induction l with
  | nil => intro acc; simp [resolveParts, realSegs]
  | cons p rest ih =>
    intro acc
    have hp : p ≠ ".." := h p (by simp)
    have hrest : ∀ q ∈ rest, q ≠ ".." := fun q hq => h q (by simp [hq])
    by_cases hE : p = "" ∨ p = "."
    · rw [resolveParts_skip acc p rest hE, ih hrest acc, realSegs_skip p rest hE]
    · push_neg at hE
      rw [resolveParts_norm acc p rest ⟨hE.1, hE.2, hp⟩, ih hrest (acc ++ [p]),
        realSegs_keep p rest hE.1 hE.2]
      simp

/-- A path of all-normal segments resolves to itself. -/
theorem resolve_normal (l : List String) (h : ∀ p ∈ l, normalSeg p) :
    resolve l = l := by
  unfold resolve
  rw [resolveParts_no_parent l (fun p hp => (h p hp).2.2) []]
  simp only [List.nil_append]
  unfold realSegs
  rw [List.filter_eq_self]
  intro p hp
  simp [(h p hp).1, (h p hp).2.1]

/-- A name accepted by validation has no parent-directory segment. -/
theorem segs_no_parent (name : String) (h : invalidName name = false) :
    ∀ p ∈ segs name, p ≠ ".." := by
  intro p hp
  unfold invalidName at h
  simp only [Bool.or_eq_false_iff] at h
  have h2 := h.2
  simp only [List.any_eq_false, decide_eq_true_eq] at h2
  exact h2 p hp

/-- The candidate directory name has at least 7 characters. -/
theorem candidateName_length (pid ts c : Nat) :
    7 ≤ (candidateName pid ts c).length := by
  have h7 : ("runner-" : String).length = 7 := rfl
  unfold candidateName
  split <;> simp [append_length, h7] <;> omega

/-- The candidate directory name is a normal path segment. -/
theorem candidateName_normal (pid ts c : Nat) :
    normalSeg (candidateName pid ts c) := by
  have hl := candidateName_length pid ts c
  refine ⟨?_, ?_, ?_⟩ <;> intro h <;> rw [h] at hl <;> exact absurd hl (by decide)

/-! ### Lemmas about the workspace-creation loop -/

/-- A successful creation returns a candidate of the expected shape. -/
theorem createLoopDown_ok (cd : Nat → CreateDirOutcome) (root : List String)
    (pid ts : Nat) : ∀ left ws,
    (createLoopDown cd root pid ts left).1 = .ok ws →
    ∃ j, 10 - left ≤ j ∧ j ≤ 10 ∧ ws = root ++ [candidateName pid ts j] := by
  intro left
  induction left with
  | zero =>
    intro ws h
    simp only [createLoopDown] at h
    rcases h10 : cd 10 with _ | msg | msg <;> rw [h10] at h <;> simp at h
    exact ⟨10, by omega, by omega, h.symm⟩
  | succ l ih =>
    intro ws h
    simp only [createLoopDown] at h
    rcases hc : cd (10 - (l + 1)) with _ | msg | msg <;> rw [hc] at h <;> simp at h
    · exact ⟨9 - l, by omega, by omega, h.symm⟩
    · rcases ih ws h with ⟨j, hj1, hj2, hj3⟩
      exact ⟨j, by omega, hj2, hj3⟩

/-- Every error of the creation loop is the display of an `io::Error`
returned by some `create_dir` attempt. -/
theorem createLoopDown_err (cd : Nat → CreateDirOutcome) (root : List String)
    (pid ts : Nat) : ∀ left e,
    (createLoopDown cd root pid ts left).1 = .error e →
    ∃ n msg, (cd n = .alreadyExists msg ∨ cd n = .otherErr msg) ∧ e = .ioErr msg := by
  intro left
  induction left with
  | zero =>
    intro e h
    simp only [createLoopDown] at h
    rcases h10 : cd 10 with _ | msg | msg <;> rw [h10] at h <;> simp at h
    · exact ⟨10, msg, Or.inl h10, h.symm⟩
    · exact ⟨10, msg, Or.inr h10, h.symm⟩
  | succ l ih =>
    intro e h
    simp only [createLoopDown] at h
    rcases hc : cd (10 - (l + 1)) with _ | msg | msg <;> rw [hc] at h <;> simp at h
    · exact ih e h
    · exact ⟨10 - (l + 1), msg, Or.inr hc, h.symm⟩

/-- Every event of the creation loop is a directory-creation attempt. -/
theorem createLoopDown_events (cd : Nat → CreateDirOutcome) (root : List String)
    (pid ts : Nat) : ∀ left ev,
    ev ∈ (createLoopDown cd root pid ts left).2 → ∃ p, ev = .mkdirAttempt p := by
  intro left
  induction left with
  | zero =>
    intro ev h
    simp only [createLoopDown] at h
    rcases h10 : cd 10 with _ | msg | msg <;> rw [h10] at h <;> simp at h <;>
      exact ⟨_, h⟩
  | succ l ih =>
    intro ev h
    simp only [createLoopDown] at h
    rcases hc : cd (10 - (l + 1)) with _ | msg | msg <;> rw [hc] at h <;> simp at h
    · exact ⟨_, h⟩
    · rcases h with h | h
      · exact ⟨_, h⟩
      · exact ih ev h
    · exact ⟨_, h⟩

/-- The first attempted candidate of the loop is the one for the current
counter value. -/
theorem createLoopDown_head (cd : Nat → CreateDirOutcome) (root : List String)
    (pid ts left : Nat) :
    (createLoopDown cd root pid ts left).2.head? =
      some (.mkdirAttempt (root ++ [candidateName pid ts (10 - left)])) := by
  cases left with
  | zero =>
    simp only [createLoopDown]
    rcases h10 : cd 10 with _ | msg | msg <;> simp
  | succ l =>
    simp only [createLoopDown]
    rcases hc : cd (10 - (l + 1)) with _ | msg | msg <;> simp

/-- When every attempt reports `AlreadyExists`, the loop makes one attempt
per remaining retry plus the initial one and fails with the final error. -/
theorem createLoopDown_exhaust (cd : Nat → CreateDirOutcome) (root : List String)
    (pid ts : Nat) (f : Nat → String) (hall : ∀ n, cd n = .alreadyExists (f n)) :
    ∀ left, (createLoopDown cd root pid ts left).1 = .error (.ioErr (f 10)) ∧
      (createLoopDown cd root pid ts left).2.length = left + 1 := by
  intro left
  induction left with
  | zero =>
    simp only [createLoopDown]
    rw [hall 10]
    simp
  | succ l ih =>
    simp only [createLoopDown]
    rw [hall (10 - (l + 1))]
    simp [ih.1, ih.2]

/-- When the first attempts collide and attempt `j` succeeds, the loop
returns the candidate with counter `j`. -/
theorem createLoopDown_succeeds (cd : Nat → CreateDirOutcome) (root : List String)
    (pid ts j : Nat) (hj : j ≤ 10)
    (hcoll : ∀ n, n < j → ∃ m, cd n = .alreadyExists m) (hok : cd j = .ok) :
    ∀ left, left ≤ 10 → 10 - left ≤ j →
    (createLoopDown cd root pid ts left).1 = .ok (root ++ [candidateName pid ts j]) := by
  intro left
  induction left with
  | zero =>
    intro _ hible
    have hj10 : j = 10 := by omega
    subst hj10
    simp only [createLoopDown]
    rw [hok]
  | succ l ih =>
    intro hle hble
    rcases Nat.lt_or_ge (10 - (l + 1)) j with hlt | hge
    · rcases hcoll _ hlt with ⟨m, hm⟩
      simp only [createLoopDown]
      rw [hm]
      exact ih (by omega) (by omega)
    · have hjc : 10 - (l + 1) = j := by omega
      simp only [createLoopDown]
      rw [hjc, hok]

/-! ### Lemmas about sanitize_and_join and materialize -/

/-- An accepted name is valid and the result is the plain join. -/
theorem sanitize_ok (base : List String) (name : String) (p : List String)
    (h : sanitize_and_join base name = .ok p) :
    invalidName name = false ∧ p = base ++ segs name := by
  unfold sanitize_and_join at h
  cases hv : invalidName name <;> rw [hv] at h <;> simp at h
  exact ⟨rfl, h.symm⟩

/-- An accepted name joined onto an all-normal base resolves to the base
followed by the name's real segments. -/
theorem sanitize_resolve (base : List String) (name : String) (p : List String)
    (hb : ∀ q ∈ base, normalSeg q) (h : sanitize_and_join base name = .ok p) :
    resolve p = base ++ realSegs (segs name) := by
  rcases sanitize_ok base name p h with ⟨hv, hp⟩
  subst hp
  unfold resolve
  rw [resolveParts_append base (segs name) []]
  have hbase : resolveParts [] base = base := resolve_normal base hb
  rw [hbase, resolveParts_no_parent (segs name) (segs_no_parent name hv) base]

/-- Every materialization event is a parent-directory creation or a file
write at a sanitized path. -/
theorem materialize_events (mkd : List String → Option String)
    (wr : List String → String → Option String) (ws : List String) :
    ∀ files ev, ev ∈ (materialize mkd wr ws files).2 →
    (∃ p, ev = .mkdirAll p) ∨
    (∃ p name, ev = .fileWrite p ∧ sanitize_and_join ws name = .ok p) := by
  intro files
  induction files with
  | nil => intro ev h; simp [materialize] at h
  | cons nc rest ih =>
    rcases nc with ⟨name, content⟩
    intro ev h
    simp only [materialize] at h
    rcases hs : sanitize_and_join ws name with e | path <;> rw [hs] at h <;>
      dsimp only at h
    · simp at h
    rcases hp : parentDir path with _ | pd <;> rw [hp] at h <;> dsimp only at h
    · rcases hw : wr path content with _ | msg <;> rw [hw] at h <;> dsimp only at h <;>
        simp at h
      · rcases h with h | h
        · exact Or.inr ⟨path, name, h, hs⟩
        · exact ih ev h
      · exact Or.inr ⟨path, name, h, hs⟩
    · rcases hm : mkd pd with _ | msg <;> rw [hm] at h <;> dsimp only at h
      · rcases hw : wr path content with _ | msg <;> rw [hw] at h <;> dsimp only at h <;>
          simp at h
        · rcases h with h | h | h
          · exact Or.inl ⟨pd, h⟩
          · exact Or.inr ⟨path, name, h, hs⟩
          · exact ih ev h
        · rcases h with h | h
          · exact Or.inl ⟨pd, h⟩
          · exact Or.inr ⟨path, name, h, hs⟩
      · simp at h
        exact Or.inl ⟨pd, h⟩

/-- A request with an invalid file name fails materialization. -/
theorem materialize_err_of_invalid (mkd : List String → Option String)
    (wr : List String → String → Option String) (ws : List String) :
    ∀ files, (∃ nc ∈ files, invalidName nc.1 = true) →
    ∃ e, (materialize mkd wr ws files).1 = .error e := by
  intro files
  induction files with
  | nil => rintro ⟨nc, hmem, _⟩; simp at hmem
  | cons nc0 rest ih =>
    rcases nc0 with ⟨name, content⟩
    rintro ⟨nc, hmem, hinv⟩
    simp only [materialize]
    rcases hs : sanitize_and_join ws name with e | path <;> dsimp only
    · exact ⟨e, rfl⟩
    rcases List.mem_cons.mp hmem with heq | hmem2
    · exfalso
      have hvname : invalidName name = true := by rw [heq] at hinv; exact hinv
      unfold sanitize_and_join at hs
      rw [hvname] at hs
      simp at hs
    · have hrest : ∃ e, (materialize mkd wr ws rest).1 = .error e :=
        ih ⟨nc, hmem2, hinv⟩
      rcases hrest with ⟨e, he⟩
      rcases hp : parentDir path with _ | pd <;> dsimp only
      · rcases hw : wr path content with _ | msg <;> dsimp only
        · exact ⟨e, he⟩
        · exact ⟨.ioErr msg, rfl⟩
      · rcases hm : mkd pd with _ | msg <;> dsimp only
        · rcases hw : wr path content with _ | msg <;> dsimp only
          · exact ⟨e, he⟩
          · exact ⟨.ioErr msg, rfl⟩
        · exact ⟨.ioErr msg, rfl⟩

/-- With a failure-free filesystem, an invalid file name makes
materialization fail precisely with the invalid-file-name error. -/
theorem materialize_invalid_clean (mkd : List String → Option String)
    (wr : List String → String → Option String) (ws : List String)
    (hmk : ∀ p, mkd p = none) (hwr : ∀ p c, wr p c = none) :
    ∀ files, (∃ nc ∈ files, invalidName nc.1 = true) →
    (materialize mkd wr ws files).1 = .error .invalidFileName := by
  intro files
  induction files with
  | nil => rintro ⟨nc, hmem, _⟩; simp at hmem
  | cons nc0 rest ih =>
    rcases nc0 with ⟨name, content⟩
    rintro ⟨nc, hmem, hinv⟩
    simp only [materialize]
    rcases hs : sanitize_and_join ws name with e | path <;> dsimp only
    · have heFile : e = .invalidFileName := by
        unfold sanitize_and_join at hs
        cases hv : invalidName name <;> rw [hv] at hs <;> simp at hs
        exact hs.symm
      rw [heFile]
    · have hvname : invalidName name = false := (sanitize_ok ws name path hs).1
      have hmem2 : nc ∈ rest := by
        rcases List.mem_cons.mp hmem with heq | hmem2
        · exfalso
          rw [heq] at hinv
          simp [hvname] at hinv
        · exact hmem2
      have hrest := ih ⟨nc, hmem2, hinv⟩
      rcases hp : parentDir path with _ | pd <;> dsimp only
      · rw [hwr path content]
        dsimp only
        exact hrest
      · rw [hmk pd, hwr path content]
        dsimp only
        exact hrest

/-- Every materialization error is the invalid-name rejection or the display
of an `io::Error` from a filesystem call. -/
theorem materialize_err (mkd : List String → Option String)
    (wr : List String → String → Option String) (ws : List String) :
    ∀ files e, (materialize mkd wr ws files).1 = .error e →
    e = .invalidFileName ∨
    (∃ p msg, mkd p = some msg ∧ e = .ioErr msg) ∨
    (∃ p c msg, wr p c = some msg ∧ e = .ioErr msg) := by
  intro files
  induction files with
  | nil => intro e h; simp [materialize] at h
  | cons nc0 rest ih =>
    rcases nc0 with ⟨name, content⟩
    intro e h
    simp only [materialize] at h
    rcases hs : sanitize_and_join ws name with e2 | path <;> rw [hs] at h <;>
      dsimp only at h
    · simp at h
      subst h
      left
      unfold sanitize_and_join at hs
      cases hv : invalidName name <;> rw [hv] at hs <;> simp at hs
      exact hs.symm
    rcases hp : parentDir path with _ | pd <;> rw [hp] at h <;> dsimp only at h
    · rcases hw : wr path content with _ | msg <;> rw [hw] at h <;> dsimp only at h
      · exact ih e h
      · simp at h
        exact Or.inr (Or.inr ⟨path, content, msg, hw, h.symm⟩)
    · rcases hm : mkd pd with _ | msg <;> rw [hm] at h <;> dsimp only at h
      · rcases hw : wr path content with _ | msg <;> rw [hw] at h <;> dsimp only at h
        · exact ih e h
        · simp at h
          exact Or.inr (Or.inr ⟨path, content, msg, hw, h.symm⟩)
      · simp at h
        exact Or.inr (Or.inl ⟨pd, msg, hm, h.symm⟩)

/-! ### Lemmas about the inner run and do_run -/

/-- A failed materialization short-circuits the inner run. -/
theorem runInner_matErr (env : Env) (req : RunRequest) (ws : List String)
    (e : RunError) (mevs : List Event)
    (h : materialize env.mkdirAll env.writeFile ws req.files = (.error e, mevs)) :
    runInner env req ws = (.error e, mevs) := by
  unfold runInner
  rw [h]

/-- A wait-stage error is the display of the `io::Error` from `wait`. -/
theorem waitStage_err (env : Env) (e : RunError)
    (h : (waitStage env).1 = .error e) :
    ∃ msg, env.waitResult = some msg ∧ e = .ioErr msg := by
  unfold waitStage at h
  rcases hwt : env.waitResult with _ | msg <;> rw [hwt] at h <;> simp at h
  exact ⟨msg, rfl, h.symm⟩

/-- The wait stage records exactly the wait event. -/
theorem waitStage_events (env : Env) : (waitStage env).2 = [.waitChild] := by
  unfold waitStage
  rcases hwt : env.waitResult with _ | msg <;> simp

/-- A supervision error is a wait failure or the timeout error. -/
theorem superviseStage_err (env : Env) (req : RunRequest) (e : RunError)
    (h : (superviseStage env req).1 = .error e) :
    (∃ msg, env.waitResult = some msg ∧ e = .ioErr msg) ∨
    e = .timedOut req.timeout_seconds (lossyDecode env.stderrBytes) := by
  unfold superviseStage at h
  by_cases ht : req.timeout_seconds > 0
  · rw [if_pos ht] at h
    rcases hex : env.exitsInTime <;> rw [hex] at h
    · unfold timeoutStage at h
      simp at h
      exact Or.inr h.symm
    · exact Or.inl (waitStage_err env e h)
  · rw [if_neg ht] at h
    exact Or.inl (waitStage_err env e h)

/-- The supervision stage records waits, and kill events only on the
timed-out path. -/
theorem superviseStage_events (env : Env) (req : RunRequest) :
    ∀ ev ∈ (superviseStage env req).2,
    ev = .waitChild ∨
    ((ev = .killChild ∨ ev = .sigkillGroup (-(env.childPid : Int))) ∧
      req.timeout_seconds > 0 ∧ env.exitsInTime = false) := by
  intro ev h
  unfold superviseStage at h
  by_cases ht : req.timeout_seconds > 0
  · rw [if_pos ht] at h
    cases hex : env.exitsInTime
    · rw [hex] at h
      by_cases hcp : env.childPid > 0 <;> simp [timeoutStage, hcp] at h
      · rcases h with h | h | h
        · exact Or.inr ⟨Or.inr h, ht, rfl⟩
        · exact Or.inr ⟨Or.inl h, ht, rfl⟩
        · exact Or.inl h
      · rcases h with h | h
        · exact Or.inr ⟨Or.inl h, ht, rfl⟩
        · exact Or.inl h
    · rw [hex] at h
      simp [waitStage_events] at h
      exact Or.inl h
  · rw [if_neg ht] at h
    rw [waitStage_events] at h
    simp at h
    exact Or.inl h

/-- Every error of the inner run comes from materialization, spawning,
waiting, or the timeout. -/
theorem runInner_err (env : Env) (req : RunRequest) (ws : List String) :
    ∀ e, (runInner env req ws).1 = .error e →
    (materialize env.mkdirAll env.writeFile ws req.files).1 = .error e ∨
    (∃ msg, env.spawnResult = some msg ∧ e = .spawnErr msg) ∨
    (∃ msg, env.waitResult = some msg ∧ e = .ioErr msg) ∨
    e = .timedOut req.timeout_seconds (lossyDecode env.stderrBytes) := by
  intro e h
  unfold runInner at h
  rcases hmat : materialize env.mkdirAll env.writeFile ws req.files with ⟨res, mevs⟩
  rcases res with e2 | u <;> rw [hmat] at h <;> dsimp only at h
  · simp at h
    left
    simp [h]
  rcases hsp : env.spawnResult with _ | msg <;> rw [hsp] at h <;> dsimp only at h
  · exact Or.inr (Or.inr (superviseStage_err env req e h))
  · simp at h
    exact Or.inr (Or.inl ⟨msg, rfl, h.symm⟩)

/-- Complete description of the events the inner run can record. -/
theorem runInner_events (env : Env) (req : RunRequest) (ws : List String) :
    ∀ ev ∈ (runInner env req ws).2,
    (∃ p, ev = .mkdirAll p) ∨
    (∃ p name, ev = .fileWrite p ∧ sanitize_and_join ws name = .ok p) ∨
    ev = .spawned (buildCommand req.command ws) ∨
    ev = .waitChild ∨
    ((ev = .killChild ∨ ev = .sigkillGroup (-(env.childPid : Int))) ∧
      req.timeout_seconds > 0 ∧ env.exitsInTime = false) := by
  intro ev h
  have hmatev := materialize_events env.mkdirAll env.writeFile ws req.files
  unfold runInner at h
  rcases hmat : materialize env.mkdirAll env.writeFile ws req.files with ⟨res, mevs⟩
  rw [hmat] at hmatev
  rcases res with e2 | u <;> rw [hmat] at h <;> dsimp only at h
  · rcases hmatev ev h with h2 | h2
    · exact Or.inl h2
    · exact Or.inr (Or.inl h2)
  rcases hsp : env.spawnResult with _ | msg <;> rw [hsp] at h <;> dsimp only at h
  · rw [List.mem_append] at h
    rcases h with h | h
    · rcases hmatev ev h with h2 | h2
      · exact Or.inl h2
      · exact Or.inr (Or.inl h2)
    · rw [List.mem_cons] at h
      rcases h with h | h
      · exact Or.inr (Or.inr (Or.inl h))
      · rcases superviseStage_events env req ev h with h2 | h2
        · exact Or.inr (Or.inr (Or.inr (Or.inl h2)))
        · exact Or.inr (Or.inr (Or.inr (Or.inr h2)))
  · rcases hmatev ev h with h2 | h2
    · exact Or.inl h2
    · exact Or.inr (Or.inl h2)

/-! ### do_run decomposition and error provenance -/

/-- If workspace creation fails, `do_run` returns that error and trace. -/
theorem do_run_createErr (env : Env) (req : RunRequest) (e : RunError)
    (cevs : List Event) (hc : create_unique_temp_dir env = (.error e, cevs)) :
    do_run env req = (.error e, cevs) := by
  unfold do_run
  rw [hc]

/-- If workspace creation succeeds, `do_run` is the inner run bracketed by
the creation attempts and the final removal. -/
theorem do_run_createOk (env : Env) (req : RunRequest) (ws : List String)
    (cevs : List Event) (hc : create_unique_temp_dir env = (.ok ws, cevs)) :
    do_run env req = ((runInner env req ws).1,
      cevs ++ (runInner env req ws).2 ++ [.removeWorkspace ws env.removeOk]) := by
  unfold do_run
  rw [hc]

/-- Every error of `do_run` originates in a named stage: workspace creation,
validation, a filesystem call, spawn, wait, or the timeout. -/
theorem do_run_err (env : Env) (req : RunRequest) :
    ∀ e, (do_run env req).1 = .error e →
    (∃ n msg, (env.createDir n = .alreadyExists msg ∨ env.createDir n = .otherErr msg) ∧
      e = .ioErr msg) ∨
    e = .invalidFileName ∨
    (∃ p msg, env.mkdirAll p = some msg ∧ e = .ioErr msg) ∨
    (∃ p c msg, env.writeFile p c = some msg ∧ e = .ioErr msg) ∨
    (∃ msg, env.spawnResult = some msg ∧ e = .spawnErr msg) ∨
    (∃ msg, env.waitResult = some msg ∧ e = .ioErr msg) ∨
    e = .timedOut req.timeout_seconds (lossyDecode env.stderrBytes) := by
  intro e h
  rcases hc : create_unique_temp_dir env with ⟨cres, cevs⟩
  rcases cres with e2 | ws
  · rw [do_run_createErr env req e2 cevs hc] at h
    simp at h
    subst h
    have h1 : (createLoopDown env.createDir env.tempRoot env.pid env.timestampNanos 10).1
        = .error e2 := by
      have := congrArg Prod.fst hc
      simpa [create_unique_temp_dir] using this
    rcases createLoopDown_err env.createDir env.tempRoot env.pid env.timestampNanos 10 e2 h1
      with ⟨n, msg, hsrc, heq⟩
    exact Or.inl ⟨n, msg, hsrc, heq⟩
  · rw [do_run_createOk env req ws cevs hc] at h
    simp at h
    rcases runInner_err env req ws e h with h2 | h2 | h2 | h2
    · rcases materialize_err env.mkdirAll env.writeFile ws req.files e h2 with h3 | h3 | h3
      · exact Or.inr (Or.inl h3)
      · exact Or.inr (Or.inr (Or.inl h3))
      · exact Or.inr (Or.inr (Or.inr (Or.inl h3)))
    · exact Or.inr (Or.inr (Or.inr (Or.inr (Or.inl h2))))
    · exact Or.inr (Or.inr (Or.inr (Or.inr (Or.inr (Or.inl h2)))))
    · exact Or.inr (Or.inr (Or.inr (Or.inr (Or.inr (Or.inr h2)))))

/-- An append is non-empty when its left part is. -/
theorem append_ne_empty_left (a b : String) (ha : a ≠ "") : a ++ b ≠ "" := by
  intro h
  apply ha
  have h2 : (a ++ b).data = [] := by rw [h]
  rw [append_data] at h2
  have h3 : a.data = [] := (List.append_eq_nil.mp h2).1
  apply String.ext
  rw [h3]

/-- The timeout error text is never empty. -/
theorem render_timedOut_ne (s : Nat) (t : String) :
    (RunError.timedOut s t).render ≠ "" := by
  unfold RunError.render
  apply append_ne_empty_left
  apply append_ne_empty_left
  apply append_ne_empty_left
  decide

/-- With a well-formed oracle, every `do_run` error renders non-empty. -/
theorem do_run_render_ne (env : Env) (req : RunRequest) (hwf : Env.WF env) :
    ∀ e, (do_run env req).1 = .error e → e.render ≠ "" := by
  intro e h
  rcases hwf with ⟨hw1, hw2, hw3, hw4, hw5, hw6⟩
  rcases do_run_err env req e h with ⟨n, msg, hsrc, heq⟩ | h2 | ⟨p, msg, hsrc, heq⟩
    | ⟨p, c, msg, hsrc, heq⟩ | ⟨msg, hsrc, heq⟩ | ⟨msg, hsrc, heq⟩ | h2
  · subst heq
    rcases hsrc with hsrc | hsrc
    · exact hw1 n msg hsrc
    · exact hw2 n msg hsrc
  · subst h2
    decide
  · subst heq
    exact hw3 p msg hsrc
  · subst heq
    exact hw4 p c msg hsrc
  · subst heq
    exact hw5 msg hsrc
  · subst heq
    exact hw6 msg hsrc
  · subst h2
    exact render_timedOut_ne _ _

/-! ### Events and traces: support lemmas for the claims -/

/-- Creation only records creation attempts in its trace. -/
theorem create_events (env : Env) :
    ∀ ev ∈ (create_unique_temp_dir env).2, ∃ p, ev = Event.mkdirAttempt p :=
  fun ev h =>
    createLoopDown_events env.createDir env.tempRoot env.pid env.timestampNanos 10 ev h

/-- A successfully created workspace is the temp root extended with one
candidate name. -/
theorem create_ok_shape (env : Env) (ws : List String) (cevs : List Event)
    (hc : create_unique_temp_dir env = (.ok ws, cevs)) :
    ∃ j, j ≤ 10 ∧ ws = env.tempRoot ++ [candidateName env.pid env.timestampNanos j] := by
  have h1 : (createLoopDown env.createDir env.tempRoot env.pid env.timestampNanos 10).1
      = .ok ws := by
    have := congrArg Prod.fst hc
    simpa [create_unique_temp_dir] using this
  rcases createLoopDown_ok env.createDir env.tempRoot env.pid env.timestampNanos 10 ws h1
    with HH
  rcases HH with ⟨j, _, hj2, hj3⟩
  exact ⟨j, hj2, hj3⟩

/-- A successfully created workspace under a normal temp root has only
normal segments. -/
theorem create_ok_normal (env : Env) (ws : List String) (cevs : List Event)
    (hroot : ∀ q ∈ env.tempRoot, normalSeg q)
    (hc : create_unique_temp_dir env = (.ok ws, cevs)) :
    ∀ q ∈ ws, normalSeg q := by
  rcases create_ok_shape env ws cevs hc with ⟨j, _, hj⟩
  subst hj
  intro q hq
  rcases List.mem_append.mp hq with h | h
  · exact hroot q h
  · rcases List.mem_singleton.mp h with h2
    rw [h2]
    exact candidateName_normal env.pid env.timestampNanos j

/-- With an invalid file name in the request, `do_run` never spawns. -/
theorem do_run_spawn_free (env : Env) (req : RunRequest)
    (hinv : ∃ nc ∈ req.files, invalidName nc.1 = true) :
    ∀ cfg, Event.spawned cfg ∉ (do_run env req).2 := by
  intro cfg hmem
  rcases hc : create_unique_temp_dir env with ⟨cres, cevs⟩
  rcases cres with e2 | ws
  · rw [do_run_createErr env req e2 cevs hc] at hmem
    dsimp only at hmem
    have h2 : Event.spawned cfg ∈ (create_unique_temp_dir env).2 := by
      rw [hc]
      exact hmem
    rcases create_events env _ h2 with ⟨p, hp⟩
    exact Event.noConfusion hp
  · rw [do_run_createOk env req ws cevs hc] at hmem
    dsimp only at hmem
    rw [List.mem_append, List.mem_append] at hmem
    rcases hmem with (h | h) | h
    · have h2 : Event.spawned cfg ∈ (create_unique_temp_dir env).2 := by
        rw [hc]
        exact h
      rcases create_events env _ h2 with ⟨p, hp⟩
      exact Event.noConfusion hp
    · rcases materialize_err_of_invalid env.mkdirAll env.writeFile ws req.files hinv
        with ⟨e, he⟩
      have hpair : materialize env.mkdirAll env.writeFile ws req.files
          = (.error e, (materialize env.mkdirAll env.writeFile ws req.files).2) := by
        rw [← he]
      rw [runInner_matErr env req ws e _ hpair] at h
      rcases materialize_events env.mkdirAll env.writeFile ws req.files _ h
        with ⟨p, hp⟩ | ⟨p, name, hp, _⟩ <;> exact Event.noConfusion hp
    · simp at h

/-- With an invalid file name in the request, `do_run` fails. -/
theorem do_run_err_of_invalid (env : Env) (req : RunRequest)
    (hinv : ∃ nc ∈ req.files, invalidName nc.1 = true) :
    ∃ e, (do_run env req).1 = .error e := by
  rcases hc : create_unique_temp_dir env with ⟨cres, cevs⟩
  rcases cres with e2 | ws
  · exact ⟨e2, by rw [do_run_createErr env req e2 cevs hc]⟩
  · rcases materialize_err_of_invalid env.mkdirAll env.writeFile ws req.files hinv
      with ⟨e, he⟩
    have hpair : materialize env.mkdirAll env.writeFile ws req.files
        = (.error e, (materialize env.mkdirAll env.writeFile ws req.files).2) := by
      rw [← he]
    refine ⟨e, ?_⟩
    rw [do_run_createOk env req ws cevs hc]
    dsimp only
    rw [runInner_matErr env req ws e _ hpair]

/-- With an invalid file name, a created workspace and a failure-free
filesystem, `do_run` fails precisely with the invalid-file-name error. -/
theorem do_run_invalid_clean (env : Env) (req : RunRequest)
    (ws : List String) (cevs : List Event)
    (hc : create_unique_temp_dir env = (.ok ws, cevs))
    (hmk : ∀ p, env.mkdirAll p = none) (hwr : ∀ p c, env.writeFile p c = none)
    (hinv : ∃ nc ∈ req.files, invalidName nc.1 = true) :
    (do_run env req).1 = .error .invalidFileName := by
  have he := materialize_invalid_clean env.mkdirAll env.writeFile ws hmk hwr req.files hinv
  have hpair : materialize env.mkdirAll env.writeFile ws req.files
      = (.error .invalidFileName, (materialize env.mkdirAll env.writeFile ws req.files).2) := by
    rw [← he]
  rw [do_run_createOk env req ws cevs hc]
  dsimp only
  rw [runInner_matErr env req ws _ _ hpair]

/-- Inner-run events are never the workspace-removal event. -/
theorem runInner_no_remove (env : Env) (req : RunRequest) (ws : List String) :
    ∀ ev ∈ (runInner env req ws).2, ¬ isRemoveEv ev = true := by
  intro ev h
  rcases runInner_events env req ws ev h with ⟨p, hp⟩ | ⟨p, name, hp, _⟩ | hp | hp
    | ⟨hp | hp, _, _⟩ <;> subst hp <;> simp [isRemoveEv]

/-- Creation events are never the workspace-removal event. -/
theorem create_no_remove (env : Env) :
    ∀ ev ∈ (create_unique_temp_dir env).2, ¬ isRemoveEv ev = true := by
  intro ev h
  rcases create_events env ev h with ⟨p, hp⟩
  subst hp
  simp [isRemoveEv]

/-- Kill events imply the timed-out path was taken. -/
theorem do_run_kill_only_timeout (env : Env) (req : RunRequest) :
    ∀ ev ∈ (do_run env req).2,
    (ev = Event.killChild ∨ ∃ g, ev = Event.sigkillGroup g) →
    req.timeout_seconds > 0 ∧ env.exitsInTime = false := by
  intro ev hmem hkill
  rcases hc : create_unique_temp_dir env with ⟨cres, cevs⟩
  rcases cres with e2 | ws
  · rw [do_run_createErr env req e2 cevs hc] at hmem
    dsimp only at hmem
    have h2 : ev ∈ (create_unique_temp_dir env).2 := by
      rw [hc]
      exact hmem
    rcases create_events env _ h2 with ⟨p, hp⟩
    subst hp
    rcases hkill with h | ⟨g, h⟩ <;> exact Event.noConfusion h
  · rw [do_run_createOk env req ws cevs hc] at hmem
    dsimp only at hmem
    rw [List.mem_append, List.mem_append] at hmem
    rcases hmem with (h | h) | h
    · have h2 : ev ∈ (create_unique_temp_dir env).2 := by
        rw [hc]
        exact h
      rcases create_events env _ h2 with ⟨p, hp⟩
      subst hp
      rcases hkill with h | ⟨g, h⟩ <;> exact Event.noConfusion h
    · rcases runInner_events env req ws ev h with ⟨p, hp⟩ | ⟨p, name, hp, _⟩ | hp | hp
        | ⟨_, h1, h2⟩
      · subst hp
        rcases hkill with h | ⟨g, h⟩ <;> exact Event.noConfusion h
      · subst hp
        rcases hkill with h | ⟨g, h⟩ <;> exact Event.noConfusion h
      · subst hp
        rcases hkill with h | ⟨g, h⟩ <;> exact Event.noConfusion h
      · subst hp
        rcases hkill with h | ⟨g, h⟩ <;> exact Event.noConfusion h
      · exact ⟨h1, h2⟩
    · simp at h
      subst h
      rcases hkill with h | ⟨g, h⟩ <;> exact Event.noConfusion h

/-! ### Newline-freedom of the JSON log line -/

/-- Appending preserves newline-freedom. -/
theorem nlFree_append (a b : String) (ha : nlFree a) (hb : nlFree b) :
    nlFree (a ++ b) := by
  unfold nlFree at *
  intro h
  rw [append_data] at h
  rcases List.mem_append.mp h with h | h
  · exact ha h
  · exact hb h

/-- Hex digits are not the newline character. -/
theorem hexDigit_ne_nl (m : Nat) (hm : m < 16) : hexDigit m ≠ '\n' := by
  interval_cases m <;> decide

/-- The JSON escape of any character contains no newline. -/
theorem jsonEscapeChar_nl (c : Char) : '\n' ∉ jsonEscapeChar c := by
  unfold jsonEscapeChar
  split_ifs with h1 h2 h3 h4 h5 h6 h7 h8
  · decide
  · decide
  · decide
  · decide
  · decide
  · decide
  · decide
  · intro h
    simp at h
    rcases h with h | h
    · exact hexDigit_ne_nl (c.toNat / 16) (by omega) h.symm
    · exact hexDigit_ne_nl (c.toNat % 16) (Nat.mod_lt _ (by omega)) h.symm
  · intro h
    simp at h
    exact h3 h.symm

/-- JSON string literals contain no newline. -/
theorem nlFree_jsonStr (s : String) : nlFree (jsonStr s) := by
  unfold nlFree jsonStr
  intro h
  simp only [String.data] at h
  rcases List.mem_cons.mp h with h | h
  · exact absurd h.symm (by decide)
  rcases List.mem_append.mp h with h | h
  · rcases List.mem_flatten.mp h with ⟨l, hl, hch⟩
    rcases List.mem_map.mp hl with ⟨c, _, hc⟩
    subst hc
    exact jsonEscapeChar_nl c hch
  · rcases List.mem_singleton.mp h with h2
    exact absurd h2.symm (by decide)

/-- Decimal digit lists contain no newline. -/
theorem natDigits_nl (fuel : Nat) : ∀ n, '\n' ∉ natDigits fuel n := by
  induction fuel with
  | zero => intro n h; simp [natDigits] at h
  | succ f ih =>
    intro n h
    unfold natDigits at h
    by_cases h10 : n < 10
    · rw [if_pos h10] at h
      rcases List.mem_singleton.mp h with h2
      exact hexDigit_ne_nl n (by omega) h2.symm
    · rw [if_neg h10] at h
      rcases List.mem_append.mp h with h | h
      · exact ih (n / 10) h
      · rcases List.mem_singleton.mp h with h2
        exact hexDigit_ne_nl (n % 10)
          (Nat.lt_of_lt_of_le (Nat.mod_lt _ (by omega)) (by omega)) h2.symm

/-- Decimal renderings contain no newline. -/
theorem nlFree_natToString (n : Nat) : nlFree (natToString n) := by
  unfold nlFree natToString
  intro h
  simp only [String.data] at h
  exact natDigits_nl (n + 1) n h

/-- Comma-joining newline-free strings is newline-free. -/
theorem nlFree_joinComma : ∀ l : List String, (∀ s ∈ l, nlFree s) →
    nlFree (joinComma l) := by
  intro l
  induction l with
  | nil => intro _; decide
  | cons x rest ih =>
    intro hall
    cases rest with
    | nil =>
      unfold joinComma
      exact hall x (by simp)
    | cons y rest2 =>
      unfold joinComma
      apply nlFree_append
      · apply nlFree_append
        · exact hall x (by simp)
        · decide
      · exact ih (fun s hs => hall s (by simp [hs]))

/-- The serialized files map contains no newline. -/
theorem nlFree_jsonFiles (files : List (String × String)) :
    nlFree (jsonFiles files) := by
  unfold jsonFiles
  apply nlFree_append
  apply nlFree_append
  · decide
  · apply nlFree_joinComma
    intro s hs
    rcases List.mem_map.mp hs with ⟨nc, _, hnc⟩
    subst hnc
    apply nlFree_append
    apply nlFree_append
    · exact nlFree_jsonStr nc.1
    · decide
    · exact nlFree_jsonStr nc.2
  · decide

/-- The serialized request contains no newline. -/
theorem nlFree_renderRunRequest (r : RunRequest) :
    nlFree (renderRunRequest r) := by
  unfold renderRunRequest
  apply nlFree_append
  apply nlFree_append
  apply nlFree_append
  apply nlFree_append
  apply nlFree_append
  apply nlFree_append
  apply nlFree_append
  apply nlFree_append
  apply nlFree_append
  apply nlFree_append
  apply nlFree_append
  apply nlFree_append
  · decide
  · exact nlFree_jsonStr _
  · decide
  · exact nlFree_jsonFiles _
  · decide
  · exact nlFree_jsonStr _
  · decide
  · exact nlFree_jsonStr _
  · decide
  · exact nlFree_jsonStr _
  · decide
  · exact nlFree_natToString _
  · decide

/-- The serialized response contains no newline. -/
theorem nlFree_renderRunResponse (r : RunResponse) :
    nlFree (renderRunResponse r) := by
  unfold renderRunResponse
  apply nlFree_append
  apply nlFree_append
  apply nlFree_append
  apply nlFree_append
  apply nlFree_append
  apply nlFree_append
  apply nlFree_append
  apply nlFree_append
  apply nlFree_append
  apply nlFree_append
  apply nlFree_append
  apply nlFree_append
  · decide
  · exact nlFree_jsonStr _
  · decide
  · exact nlFree_jsonStr _
  · decide
  · exact nlFree_jsonStr _
  · decide
  · exact nlFree_jsonStr _
  · decide
  · exact nlFree_jsonStr _
  · decide
  · exact nlFree_jsonStr _
  · decide

/-- The serialized log entry is a single line: it contains no newline. -/
theorem nlFree_renderLogEntry (e : LogEntry) : nlFree (renderLogEntry e) := by
  unfold renderLogEntry
  apply nlFree_append
  apply nlFree_append
  apply nlFree_append
  apply nlFree_append
  apply nlFree_append
  apply nlFree_append
  apply nlFree_append
  apply nlFree_append
  · decide
  · exact nlFree_jsonStr _
  · decide
  · exact nlFree_renderRunRequest _
  · decide
  · exact nlFree_jsonStr _
  · decide
  · exact nlFree_renderRunResponse _
  · decide

/-! ### The replacement marker appears for invalid UTF-8 -/

/-- One decoding step: ASCII byte. -/
theorem lossyAux_ascii (b0 : Nat) (r0 : List Nat) (h : b0 < 0x80) :
    lossyAux (b0 :: r0) = char1 b0 :: lossyAux r0 := by
  conv_lhs => rw [lossyAux.eq_def]
  simp only [h, if_true, if_pos]

/-- One validity step: ASCII byte. -/
theorem validUtf8_ascii (b0 : Nat) (r0 : List Nat) (h : b0 < 0x80) :
    validUtf8 (b0 :: r0) = validUtf8 r0 := by
  conv_lhs => rw [validUtf8.eq_def]
  simp only [h, if_true, if_pos]

/-- One decoding step: complete 2-byte sequence. -/
theorem lossyAux_2ok (b0 b1 : Nat) (r1 : List Nat) (h0 : ¬ b0 < 0x80)
    (hB : (0xC2 ≤ b0 && b0 ≤ 0xDF) = true) (hc : isCont b1 = true) :
    lossyAux (b0 :: b1 :: r1) = char2 b0 b1 :: lossyAux r1 := by
  conv_lhs => rw [lossyAux.eq_def]
  simp only [h0, hB, hc, if_true, if_false, ite_true, ite_false, if_pos, if_neg,
    not_false_iff]

/-- One validity step: complete 2-byte sequence. -/
theorem validUtf8_2ok (b0 b1 : Nat) (r1 : List Nat) (h0 : ¬ b0 < 0x80)
    (hB : (0xC2 ≤ b0 && b0 ≤ 0xDF) = true) (hc : isCont b1 = true) :
    validUtf8 (b0 :: b1 :: r1) = validUtf8 r1 := by
  conv_lhs => rw [validUtf8.eq_def]
  simp only [h0, hB, hc, if_true, if_false, ite_true, ite_false, if_pos, if_neg,
    not_false_iff]

/-- One decoding step: truncated 2-byte sequence at end of input. -/
theorem lossyAux_2nil (b0 : Nat) (h0 : ¬ b0 < 0x80)
    (hB : (0xC2 ≤ b0 && b0 ≤ 0xDF) = true) :
    lossyAux [b0] = [repl] := by
  conv_lhs => rw [lossyAux.eq_def]
  simp only [h0, hB, if_true, if_false, ite_true, ite_false, Bool.false_eq_true, Bool.true_eq_false]

/-- One decoding step: 2-byte lead with an invalid continuation. -/
theorem lossyAux_2bad (b0 b1 : Nat) (r1 : List Nat) (h0 : ¬ b0 < 0x80)
    (hB : (0xC2 ≤ b0 && b0 ≤ 0xDF) = true) (hc : ¬ isCont b1 = true) :
    lossyAux (b0 :: b1 :: r1) = repl :: lossyAux (b1 :: r1) := by
  conv_lhs => rw [lossyAux.eq_def]
  simp only [h0, hB, hc, if_true, if_false, ite_true, ite_false, Bool.false_eq_true, Bool.true_eq_false]

/-- One decoding step: complete 3-byte sequence. -/
theorem lossyAux_3ok (b0 b1 b2 : Nat) (r2 : List Nat) (h0 : ¬ b0 < 0x80)
    (hB : ¬ (0xC2 ≤ b0 && b0 ≤ 0xDF) = true) (hC : (0xE0 ≤ b0 && b0 ≤ 0xEF) = true)
    (hc1 : cont2Ok b0 b1 = true) (hc2 : isCont b2 = true) :
    lossyAux (b0 :: b1 :: b2 :: r2) = char3 b0 b1 b2 :: lossyAux r2 := by
  conv_lhs => rw [lossyAux.eq_def]
  simp only [h0, hB, hC, hc1, hc2, if_true, if_false, ite_true, ite_false, Bool.false_eq_true, Bool.true_eq_false]

/-- One validity step: complete 3-byte sequence. -/
theorem validUtf8_3ok (b0 b1 b2 : Nat) (r2 : List Nat) (h0 : ¬ b0 < 0x80)
    (hB : ¬ (0xC2 ≤ b0 && b0 ≤ 0xDF) = true) (hC : (0xE0 ≤ b0 && b0 ≤ 0xEF) = true)
    (hc1 : cont2Ok b0 b1 = true) (hc2 : isCont b2 = true) :
    validUtf8 (b0 :: b1 :: b2 :: r2) = validUtf8 r2 := by
  conv_lhs => rw [validUtf8.eq_def]
  simp only [h0, hB, hC, hc1, hc2, if_true, if_false, ite_true, ite_false, Bool.false_eq_true, Bool.true_eq_false]

/-- One decoding step: truncated 3-byte sequence at end of input. -/
theorem lossyAux_3nil (b0 : Nat) (h0 : ¬ b0 < 0x80)
    (hB : ¬ (0xC2 ≤ b0 && b0 ≤ 0xDF) = true) (hC : (0xE0 ≤ b0 && b0 ≤ 0xEF) = true) :
    lossyAux [b0] = [repl] := by
  conv_lhs => rw [lossyAux.eq_def]
  simp only [h0, hB, hC, if_true, if_false, ite_true, ite_false, Bool.false_eq_true, Bool.true_eq_false]

/-- One decoding step: 3-byte lead and second byte, then end of input. -/
theorem lossyAux_3nil2 (b0 b1 : Nat) (h0 : ¬ b0 < 0x80)
    (hB : ¬ (0xC2 ≤ b0 && b0 ≤ 0xDF) = true) (hC : (0xE0 ≤ b0 && b0 ≤ 0xEF) = true)
    (hc1 : cont2Ok b0 b1 = true) :
    lossyAux [b0, b1] = [repl] := by
  conv_lhs => rw [lossyAux.eq_def]
  simp only [h0, hB, hC, hc1, if_true, if_false, ite_true, ite_false, Bool.false_eq_true, Bool.true_eq_false]

/-- One decoding step: 3-byte lead with an invalid third byte. -/
theorem lossyAux_3bad2 (b0 b1 b2 : Nat) (r2 : List Nat) (h0 : ¬ b0 < 0x80)
    (hB : ¬ (0xC2 ≤ b0 && b0 ≤ 0xDF) = true) (hC : (0xE0 ≤ b0 && b0 ≤ 0xEF) = true)
    (hc1 : cont2Ok b0 b1 = true) (hc2 : ¬ isCont b2 = true) :
    lossyAux (b0 :: b1 :: b2 :: r2) = repl :: lossyAux (b2 :: r2) := by
  conv_lhs => rw [lossyAux.eq_def]
  simp only [h0, hB, hC, hc1, hc2, if_true, if_false, ite_true, ite_false, Bool.false_eq_true, Bool.true_eq_false]

/-- One decoding step: 3-byte lead with an invalid second byte. -/
theorem lossyAux_3bad1 (b0 b1 : Nat) (r1 : List Nat) (h0 : ¬ b0 < 0x80)
    (hB : ¬ (0xC2 ≤ b0 && b0 ≤ 0xDF) = true) (hC : (0xE0 ≤ b0 && b0 ≤ 0xEF) = true)
    (hc1 : ¬ cont2Ok b0 b1 = true) :
    lossyAux (b0 :: b1 :: r1) = repl :: lossyAux (b1 :: r1) := by
  conv_lhs => rw [lossyAux.eq_def]
  simp only [h0, hB, hC, hc1, if_true, if_false, ite_true, ite_false, Bool.false_eq_true, Bool.true_eq_false]

/-- One decoding step: complete 4-byte sequence. -/
theorem lossyAux_4ok (b0 b1 b2 b3 : Nat) (r3 : List Nat) (h0 : ¬ b0 < 0x80)
    (hB : ¬ (0xC2 ≤ b0 && b0 ≤ 0xDF) = true) (hC : ¬ (0xE0 ≤ b0 && b0 ≤ 0xEF) = true)
    (hD : (0xF0 ≤ b0 && b0 ≤ 0xF4) = true)
    (hc1 : cont2Ok b0 b1 = true) (hc2 : isCont b2 = true) (hc3 : isCont b3 = true) :
    lossyAux (b0 :: b1 :: b2 :: b3 :: r3) = char4 b0 b1 b2 b3 :: lossyAux r3 := by
  conv_lhs => rw [lossyAux.eq_def]
  simp only [h0, hB, hC, hD, hc1, hc2, hc3, if_true, if_false, ite_true, ite_false, Bool.false_eq_true, Bool.true_eq_false]

/-- One validity step: complete 4-byte sequence. -/
theorem validUtf8_4ok (b0 b1 b2 b3 : Nat) (r3 : List Nat) (h0 : ¬ b0 < 0x80)
    (hB : ¬ (0xC2 ≤ b0 && b0 ≤ 0xDF) = true) (hC : ¬ (0xE0 ≤ b0 && b0 ≤ 0xEF) = true)
    (hD : (0xF0 ≤ b0 && b0 ≤ 0xF4) = true)
    (hc1 : cont2Ok b0 b1 = true) (hc2 : isCont b2 = true) (hc3 : isCont b3 = true) :
    validUtf8 (b0 :: b1 :: b2 :: b3 :: r3) = validUtf8 r3 := by
  conv_lhs => rw [validUtf8.eq_def]
  simp only [h0, hB, hC, hD, hc1, hc2, hc3, if_true, if_false, ite_true, ite_false, Bool.false_eq_true, Bool.true_eq_false]

/-- One decoding step: truncated 4-byte sequence at end of input. -/
theorem lossyAux_4nil (b0 : Nat) (h0 : ¬ b0 < 0x80)
    (hB : ¬ (0xC2 ≤ b0 && b0 ≤ 0xDF) = true) (hC : ¬ (0xE0 ≤ b0 && b0 ≤ 0xEF) = true)
    (hD : (0xF0 ≤ b0 && b0 ≤ 0xF4) = true) :
    lossyAux [b0] = [repl] := by
  conv_lhs => rw [lossyAux.eq_def]
  simp only [h0, hB, hC, hD, if_true, if_false, ite_true, ite_false, Bool.false_eq_true, Bool.true_eq_false]

/-- One decoding step: 4-byte lead and second byte, then end of input. -/
theorem lossyAux_4nil2 (b0 b1 : Nat) (h0 : ¬ b0 < 0x80)
    (hB : ¬ (0xC2 ≤ b0 && b0 ≤ 0xDF) = true) (hC : ¬ (0xE0 ≤ b0 && b0 ≤ 0xEF) = true)
    (hD : (0xF0 ≤ b0 && b0 ≤ 0xF4) = true) (hc1 : cont2Ok b0 b1 = true) :
    lossyAux [b0, b1] = [repl] := by
  conv_lhs => rw [lossyAux.eq_def]
  simp only [h0, hB, hC, hD, hc1, if_true, if_false, ite_true, ite_false, Bool.false_eq_true, Bool.true_eq_false]

/-- One decoding step: 4-byte lead with three bytes, then end of input. -/
theorem lossyAux_4nil3 (b0 b1 b2 : Nat) (h0 : ¬ b0 < 0x80)
    (hB : ¬ (0xC2 ≤ b0 && b0 ≤ 0xDF) = true) (hC : ¬ (0xE0 ≤ b0 && b0 ≤ 0xEF) = true)
    (hD : (0xF0 ≤ b0 && b0 ≤ 0xF4) = true) (hc1 : cont2Ok b0 b1 = true)
    (hc2 : isCont b2 = true) :
    lossyAux [b0, b1, b2] = [repl] := by
  conv_lhs => rw [lossyAux.eq_def]
  simp only [h0, hB, hC, hD, hc1, hc2, if_true, if_false, ite_true, ite_false, Bool.false_eq_true, Bool.true_eq_false]

/-- One decoding step: 4-byte lead with an invalid fourth byte. -/
theorem lossyAux_4bad3 (b0 b1 b2 b3 : Nat) (r3 : List Nat) (h0 : ¬ b0 < 0x80)
    (hB : ¬ (0xC2 ≤ b0 && b0 ≤ 0xDF) = true) (hC : ¬ (0xE0 ≤ b0 && b0 ≤ 0xEF) = true)
    (hD : (0xF0 ≤ b0 && b0 ≤ 0xF4) = true) (hc1 : cont2Ok b0 b1 = true)
    (hc2 : isCont b2 = true) (hc3 : ¬ isCont b3 = true) :
    lossyAux (b0 :: b1 :: b2 :: b3 :: r3) = repl :: lossyAux (b3 :: r3) := by
  conv_lhs => rw [lossyAux.eq_def]
  simp only [h0, hB, hC, hD, hc1, hc2, hc3, if_true, if_false, ite_true, ite_false, Bool.false_eq_true, Bool.true_eq_false]

/-- One decoding step: 4-byte lead with an invalid third byte. -/
theorem lossyAux_4bad2 (b0 b1 b2 : Nat) (r2 : List Nat) (h0 : ¬ b0 < 0x80)
    (hB : ¬ (0xC2 ≤ b0 && b0 ≤ 0xDF) = true) (hC : ¬ (0xE0 ≤ b0 && b0 ≤ 0xEF) = true)
    (hD : (0xF0 ≤ b0 && b0 ≤ 0xF4) = true) (hc1 : cont2Ok b0 b1 = true)
    (hc2 : ¬ isCont b2 = true) :
    lossyAux (b0 :: b1 :: b2 :: r2) = repl :: lossyAux (b2 :: r2) := by
  conv_lhs => rw [lossyAux.eq_def]
  simp only [h0, hB, hC, hD, hc1, hc2, if_true, if_false, ite_true, ite_false, Bool.false_eq_true, Bool.true_eq_false]

/-- One decoding step: 4-byte lead with an invalid second byte. -/
theorem lossyAux_4bad1 (b0 b1 : Nat) (r1 : List Nat) (h0 : ¬ b0 < 0x80)
    (hB : ¬ (0xC2 ≤ b0 && b0 ≤ 0xDF) = true) (hC : ¬ (0xE0 ≤ b0 && b0 ≤ 0xEF) = true)
    (hD : (0xF0 ≤ b0 && b0 ≤ 0xF4) = true) (hc1 : ¬ cont2Ok b0 b1 = true) :
    lossyAux (b0 :: b1 :: r1) = repl :: lossyAux (b1 :: r1) := by
  conv_lhs => rw [lossyAux.eq_def]
  simp only [h0, hB, hC, hD, hc1, if_true, if_false, ite_true, ite_false, Bool.false_eq_true, Bool.true_eq_false]

/-- One decoding step: invalid lead byte. -/
theorem lossyAux_badlead (b0 : Nat) (r0 : List Nat) (h0 : ¬ b0 < 0x80)
    (hB : ¬ (0xC2 ≤ b0 && b0 ≤ 0xDF) = true) (hC : ¬ (0xE0 ≤ b0 && b0 ≤ 0xEF) = true)
    (hD : ¬ (0xF0 ≤ b0 && b0 ≤ 0xF4) = true) :
    lossyAux (b0 :: r0) = repl :: lossyAux r0 := by
  conv_lhs => rw [lossyAux.eq_def]
  simp only [h0, hB, hC, hD, if_true, if_false, ite_true, ite_false, Bool.false_eq_true, Bool.true_eq_false]

/-- Lossy decoding of any invalid byte list contains the replacement
character, by strong induction on the length. -/
theorem repl_fuel : ∀ (fuel : Nat) (bs : List Nat), bs.length ≤ fuel →
    validUtf8 bs = false → repl ∈ lossyAux bs := by
  intro fuel
  induction fuel with
  | zero =>
    intro bs hlen hv
    cases bs with
    | nil => rw [validUtf8] at hv; exact Bool.noConfusion hv
    | cons b r => simp at hlen
  | succ f ih =>
    intro bs hlen hv
    cases bs with
    | nil => rw [validUtf8] at hv; exact Bool.noConfusion hv
    | cons b0 r0 =>
      simp only [List.length_cons] at hlen
      by_cases h0 : b0 < 0x80
      · rw [lossyAux_ascii b0 r0 h0]
        rw [validUtf8_ascii b0 r0 h0] at hv
        exact List.mem_cons_of_mem _ (ih r0 (by omega) hv)
      by_cases hB : (0xC2 ≤ b0 && b0 ≤ 0xDF) = true
      · cases r0 with
        | nil => rw [lossyAux_2nil b0 h0 hB]; exact List.mem_singleton.mpr rfl
        | cons b1 r1 =>
          simp only [List.length_cons] at hlen
          by_cases hc : isCont b1 = true
          · rw [lossyAux_2ok b0 b1 r1 h0 hB hc]
            rw [validUtf8_2ok b0 b1 r1 h0 hB hc] at hv
            exact List.mem_cons_of_mem _ (ih r1 (by omega) hv)
          · rw [lossyAux_2bad b0 b1 r1 h0 hB hc]
            exact List.mem_cons_self _ _
      by_cases hC : (0xE0 ≤ b0 && b0 ≤ 0xEF) = true
      · cases r0 with
        | nil => rw [lossyAux_3nil b0 h0 hB hC]; exact List.mem_singleton.mpr rfl
        | cons b1 r1 =>
          simp only [List.length_cons] at hlen
          by_cases hc1 : cont2Ok b0 b1 = true
          · cases r1 with
            | nil => rw [lossyAux_3nil2 b0 b1 h0 hB hC hc1]; exact List.mem_singleton.mpr rfl
            | cons b2 r2 =>
              simp only [List.length_cons] at hlen
              by_cases hc2 : isCont b2 = true
              · rw [lossyAux_3ok b0 b1 b2 r2 h0 hB hC hc1 hc2]
                rw [validUtf8_3ok b0 b1 b2 r2 h0 hB hC hc1 hc2] at hv
                exact List.mem_cons_of_mem _ (ih r2 (by omega) hv)
              · rw [lossyAux_3bad2 b0 b1 b2 r2 h0 hB hC hc1 hc2]
                exact List.mem_cons_self _ _
          · rw [lossyAux_3bad1 b0 b1 r1 h0 hB hC hc1]
            exact List.mem_cons_self _ _
      by_cases hD : (0xF0 ≤ b0 && b0 ≤ 0xF4) = true
      · cases r0 with
        | nil => rw [lossyAux_4nil b0 h0 hB hC hD]; exact List.mem_singleton.mpr rfl
        | cons b1 r1 =>
          simp only [List.length_cons] at hlen
          by_cases hc1 : cont2Ok b0 b1 = true
          · cases r1 with
            | nil => rw [lossyAux_4nil2 b0 b1 h0 hB hC hD hc1]; exact List.mem_singleton.mpr rfl
            | cons b2 r2 =>
              simp only [List.length_cons] at hlen
              by_cases hc2 : isCont b2 = true
              · cases r2 with
                | nil =>
                  rw [lossyAux_4nil3 b0 b1 b2 h0 hB hC hD hc1 hc2]
                  exact List.mem_singleton.mpr rfl
                | cons b3 r3 =>
                  simp only [List.length_cons] at hlen
                  by_cases hc3 : isCont b3 = true
                  · rw [lossyAux_4ok b0 b1 b2 b3 r3 h0 hB hC hD hc1 hc2 hc3]
                    rw [validUtf8_4ok b0 b1 b2 b3 r3 h0 hB hC hD hc1 hc2 hc3] at hv
                    exact List.mem_cons_of_mem _ (ih r3 (by omega) hv)
                  · rw [lossyAux_4bad3 b0 b1 b2 b3 r3 h0 hB hC hD hc1 hc2 hc3]
                    exact List.mem_cons_self _ _
              · rw [lossyAux_4bad2 b0 b1 b2 r2 h0 hB hC hD hc1 hc2]
                exact List.mem_cons_self _ _
          · rw [lossyAux_4bad1 b0 b1 r1 h0 hB hC hD hc1]
            exact List.mem_cons_self _ _
      · rw [lossyAux_badlead b0 r0 h0 hB hC hD]
        exact List.mem_cons_self _ _

/-- Lossy decoding of any invalid byte list contains the replacement
character. -/
theorem repl_mem_of_invalid (bs : List Nat) (hv : validUtf8 bs = false) :
    repl ∈ lossyAux bs :=
  repl_fuel bs.length bs (le_refl _) hv

/-! ### Success-path decomposition helpers -/

/-- A successful materialization and spawn reduce the inner run to the
supervision stage. -/
theorem runInner_ok_decomp (env : Env) (req : RunRequest) (ws : List String)
    (mevs : List Event)
    (hmat : materialize env.mkdirAll env.writeFile ws req.files = (.ok (), mevs))
    (hsp : env.spawnResult = none) :
    runInner env req ws = ((superviseStage env req).1,
      mevs ++ Event.spawned (buildCommand req.command ws) :: (superviseStage env req).2) := by
  unfold runInner
  rw [hmat, hsp]

/-- With timeout 0, supervision is the plain wait. -/
theorem superviseStage_zero (env : Env) (req : RunRequest)
    (h0 : req.timeout_seconds = 0) :
    superviseStage env req = waitStage env := by
  unfold superviseStage
  rw [if_neg (by omega)]

/-- With a positive timeout and a child that misses the deadline, supervision
kills the group `-pid`, the child, reaps it, and fails with the timeout
error. -/
theorem superviseStage_timeout (env : Env) (req : RunRequest)
    (ht : req.timeout_seconds > 0) (hex : env.exitsInTime = false)
    (hcp : 0 < env.childPid) :
    superviseStage env req =
      (.error (.timedOut req.timeout_seconds (lossyDecode env.stderrBytes)),
       [Event.sigkillGroup (-(env.childPid : Int)), .killChild, .waitChild]) := by
  unfold superviseStage timeoutStage
  rw [if_pos ht, hex]
  simp [hcp]

/-- When the wait succeeds (and the deadline is met if there is one),
supervision returns the lossily decoded output. -/
theorem superviseStage_ok (env : Env) (req : RunRequest)
    (hwt : env.waitResult = none)
    (hex : req.timeout_seconds > 0 → env.exitsInTime = true) :
    (superviseStage env req).1 =
      .ok { stdout := lossyDecode env.stdoutBytes
            stderr := lossyDecode env.stderrBytes } := by
  unfold superviseStage waitStage
  by_cases ht : req.timeout_seconds > 0
  · rw [if_pos ht, hex ht]
    simp [hwt]
  · rw [if_neg ht]
    simp [hwt]

/-- Full success path of `do_run`: the result is the lossily decoded
output. -/
theorem do_run_ok_result (env : Env) (req : RunRequest) (ws : List String)
    (cevs mevs : List Event)
    (hc : create_unique_temp_dir env = (.ok ws, cevs))
    (hmat : materialize env.mkdirAll env.writeFile ws req.files = (.ok (), mevs))
    (hsp : env.spawnResult = none) (hwt : env.waitResult = none)
    (hex : req.timeout_seconds > 0 → env.exitsInTime = true) :
    (do_run env req).1 = .ok { stdout := lossyDecode env.stdoutBytes
                               stderr := lossyDecode env.stderrBytes } := by
  rw [do_run_createOk env req ws cevs hc]
  dsimp only
  rw [runInner_ok_decomp env req ws mevs hmat hsp]
  dsimp only
  exact superviseStage_ok env req hwt hex

/-! ### Helper facts about the concrete oracles -/

/-- The all-success oracle is well-formed. -/
theorem envOk_WF : Env.WF envOk :=
  ⟨fun _n msg h => by simp [envOk] at h,
   fun _n msg h => by simp [envOk] at h,
   fun p msg h => by simp [envOk] at h,
   fun p c msg h => by simp [envOk] at h,
   fun msg h => by simp [envOk] at h,
   fun msg h => by simp [envOk] at h⟩

/-- An immediate non-collision creation failure aborts the loop with that
error after the single attempt. -/
theorem createLoopDown_other (cd : Nat → CreateDirOutcome) (root : List String)
    (pid ts : Nat) : ∀ left msg, cd (10 - left) = .otherErr msg →
    createLoopDown cd root pid ts left =
      (.error (.ioErr msg),
       [.mkdirAttempt (root ++ [candidateName pid ts (10 - left)])]) := by
  intro left msg h
  cases left with
  | zero =>
    simp only [Nat.sub_zero] at h ⊢
    simp only [createLoopDown]
    rw [h]
  | succ l =>
    simp only [createLoopDown]
    rw [h]

/-! ### The claims -/

/-- C1: for every request (and OS oracle whose error displays are non-empty,
as `std::io::Error`'s are), the value returned by `run` has exactly one of
two shapes: on success, `error` is empty and `stdout`/`stderr` carry the
captured output; on failure, `error` is a non-empty descriptive string and
both `stdout` and `stderr` are empty. -/
theorem C1_response_shape (env : Env) (req : RunRequest) (hwf : Env.WF env) :
    responseShape (run env req) (do_run env req).1 := by
  unfold responseShape run
  rcases hd : (do_run env req).1 with e | r <;> dsimp only
  · right
    exact ⟨do_run_render_ne env req hwf e hd, rfl, rfl⟩
  · left
    exact ⟨rfl, r, rfl, rfl, rfl⟩

/-- C1 witness at a concrete all-success oracle and the empty request. -/
theorem C1_response_shape_witness :
    responseShape (run envOk reqEmpty) (do_run envOk reqEmpty).1 :=
  C1_response_shape envOk reqEmpty envOk_WF

/-- C2: a request in which some file name is absolute or contains a `..`
component makes `do_run` fail and never spawn a process; and when the
workspace was created and the filesystem reports no unrelated failures, the
error text is precisely the invalid-file-name rejection. -/
theorem C2_invalid_name_rejected (env : Env) (req : RunRequest)
    (hinv : ∃ nc ∈ req.files, invalidName nc.1 = true) :
    (∀ cfg, Event.spawned cfg ∉ (do_run env req).2) ∧
    (∃ e, (do_run env req).1 = .error e) ∧
    (∀ ws cevs, create_unique_temp_dir env = (.ok ws, cevs) →
      (∀ p, env.mkdirAll p = none) → (∀ p c, env.writeFile p c = none) →
      (do_run env req).1 = .error .invalidFileName) :=
  ⟨do_run_spawn_free env req hinv, do_run_err_of_invalid env req hinv,
    fun ws cevs hc hmk hwr => do_run_invalid_clean env req ws cevs hc hmk hwr hinv⟩

/-- C2 witness: the request materializing `../evil` fails with the
invalid-file-name error and spawns nothing. -/
theorem C2_invalid_name_rejected_witness :
    (∀ cfg, Event.spawned cfg ∉ (do_run envOk reqBad).2) ∧
    (do_run envOk reqBad).1 = .error .invalidFileName := by
  have h := C2_invalid_name_rejected envOk reqBad
    ⟨("../evil", "x"), by simp [reqBad], by decide⟩
  exact ⟨h.1, h.2.2 ["tmp", "runner-7-3"] [.mkdirAttempt ["tmp", "runner-7-3"]]
    rfl (fun p => rfl) (fun p c => rfl)⟩

/-- C3 counterexample: the file name "." is accepted by validation, yet its
join onto the workspace resolves to the workspace itself — not strictly
inside it — so the claim as stated fails. -/
theorem C3_counterexample :
    sanitize_and_join ["tmp", "w"] "." = .ok ["tmp", "w", "."] ∧
    resolve ["tmp", "w", "."] = resolve ["tmp", "w"] ∧
    ¬ strictlyWithin ["tmp", "w"] ["tmp", "w", "."] := by
  refine ⟨rfl, rfl, ?_⟩
  rintro ⟨rest, hne, hr⟩
  rw [show resolve ["tmp", "w", "."] = ["tmp", "w"] from rfl] at hr
  simp at hr
  exact hne hr

/-- C3 (amended): every accepted file name joins to the workspace path and
resolves at or below the workspace — strictly inside whenever the name has a
real path segment (names such as "" or "." resolve to the workspace itself)
— and every file write performed by `do_run` under a normal temp root
targets a path at or below the workspace. -/
theorem C3_materialized_paths :
    (∀ (ws : List String) (name : String) (p : List String),
      (∀ q ∈ ws, normalSeg q) → sanitize_and_join ws name = .ok p →
      p = ws ++ segs name ∧
      resolve p = ws ++ realSegs (segs name) ∧
      withinDir ws p ∧
      (realSegs (segs name) ≠ [] → strictlyWithin ws p)) ∧
    (∀ (env : Env) (req : RunRequest) (ws : List String) (cevs : List Event),
      (∀ q ∈ env.tempRoot, normalSeg q) →
      create_unique_temp_dir env = (.ok ws, cevs) →
      ∀ p, Event.fileWrite p ∈ (do_run env req).2 → withinDir ws p) := by
  constructor
  · intro ws name p hb hs
    have hres := sanitize_resolve ws name p hb hs
    refine ⟨(sanitize_ok ws name p hs).2, hres, ⟨realSegs (segs name), hres⟩, ?_⟩
    intro hne
    exact ⟨realSegs (segs name), hne, hres⟩
  · intro env req ws cevs hroot hc p hmem
    have hwsn : ∀ q ∈ ws, normalSeg q := create_ok_normal env ws cevs hroot hc
    rw [do_run_createOk env req ws cevs hc] at hmem
    dsimp only at hmem
    rw [List.mem_append, List.mem_append] at hmem
    rcases hmem with (h | h) | h
    · have h2 : Event.fileWrite p ∈ (create_unique_temp_dir env).2 := by
        rw [hc]
        exact h
      rcases create_events env _ h2 with ⟨q, hq⟩
      exact Event.noConfusion hq
    · rcases runInner_events env req ws _ h with ⟨q, hq⟩ | ⟨q, name, hq, hsan⟩ | hq | hq
        | ⟨hq | hq, _, _⟩
      · exact Event.noConfusion hq
      · have hpq : p = q := by injection hq
        subst hpq
        exact ⟨realSegs (segs name), sanitize_resolve ws name p hwsn hsan⟩
      · exact Event.noConfusion hq
      · exact Event.noConfusion hq
      · exact Event.noConfusion hq
      · exact Event.noConfusion hq
    · simp at h

/-- C3 witness: the two-segment name `a/b` is accepted and lands strictly
inside the workspace. -/
theorem C3_materialized_paths_witness :
    resolve ["tmp", "w", "a", "b"] = ["tmp", "w"] ++ realSegs (segs "a/b") ∧
    strictlyWithin ["tmp", "w"] ["tmp", "w", "a", "b"] := by
  have h := C3_materialized_paths.1 ["tmp", "w"] "a/b" ["tmp", "w", "a", "b"]
    (by decide) rfl
  exact ⟨h.2.1, h.2.2.2 (by decide)⟩

/-- C4: whenever the workspace directory was created, `do_run` performs the
removal exactly once, as the last action after the whole attempt, on every
exit path; and the removal outcome never changes the returned result. -/
theorem C4_cleanup_exactly_once (env : Env) (req : RunRequest) (ws : List String)
    (cevs : List Event) (hc : create_unique_temp_dir env = (.ok ws, cevs)) :
    ((do_run env req).2.countP isRemoveEv = 1) ∧
    (∃ pre, (do_run env req).2 = pre ++ [.removeWorkspace ws env.removeOk]) ∧
    (∀ b, (do_run {env with removeOk := b} req).1 = (do_run env req).1) := by
  rw [do_run_createOk env req ws cevs hc]
  dsimp only
  refine ⟨?_, ?_, ?_⟩
  · rw [List.countP_append, List.countP_append]
    have h1 : cevs.countP isRemoveEv = 0 :=
      List.countP_eq_zero.mpr
        (fun ev hev => create_no_remove env ev (by rw [hc]; exact hev))
    have h2 : (runInner env req ws).2.countP isRemoveEv = 0 :=
      List.countP_eq_zero.mpr (runInner_no_remove env req ws)
    rw [h1, h2]
    simp [isRemoveEv]
  · exact ⟨cevs ++ (runInner env req ws).2, by rw [List.append_assoc]⟩
  · intro b
    have hc2 : create_unique_temp_dir {env with removeOk := b} = (.ok ws, cevs) := hc
    rw [do_run_createOk {env with removeOk := b} req ws cevs hc2]
    rfl

/-- C4 witness at the all-success oracle. -/
theorem C4_cleanup_exactly_once_witness :
    (do_run envOk reqEmpty).2.countP isRemoveEv = 1 :=
  (C4_cleanup_exactly_once envOk reqEmpty ["tmp", "runner-7-3"]
    [.mkdirAttempt ["tmp", "runner-7-3"]] rfl).1

/-- C5: workspace creation first attempts `temp_root/runner-{pid}-{nanos}`;
if an attempt fails with `AlreadyExists` it retries with an appended counter,
making 11 attempts in total (10 retries) before returning the final error;
any other creation failure returns immediately; and a success at attempt `j`
returns the candidate with counter `j`. -/
theorem C5_create_unique_temp_dir (env : Env) :
    ((create_unique_temp_dir env).2.head? =
      some (.mkdirAttempt
        (env.tempRoot ++ [candidateName env.pid env.timestampNanos 0])) ∧
     ∀ p t : Nat, candidateName p t 0 = "runner-" ++ toString p ++ "-" ++ toString t) ∧
    (∀ f : Nat → String, (∀ n, env.createDir n = .alreadyExists (f n)) →
      (create_unique_temp_dir env).1 = .error (.ioErr (f 10)) ∧
      (create_unique_temp_dir env).2.length = 11) ∧
    (∀ msg, env.createDir 0 = .otherErr msg →
      create_unique_temp_dir env =
        (.error (.ioErr msg),
         [.mkdirAttempt (env.tempRoot ++ [candidateName env.pid env.timestampNanos 0])])) ∧
    (∀ j, j ≤ 10 → (∀ n, n < j → ∃ m, env.createDir n = .alreadyExists m) →
      env.createDir j = .ok →
      (create_unique_temp_dir env).1 =
        .ok (env.tempRoot ++ [candidateName env.pid env.timestampNanos j])) := by
  refine ⟨⟨?_, ?_⟩, ?_, ?_, ?_⟩
  · have h := createLoopDown_head env.createDir env.tempRoot env.pid env.timestampNanos 10
    simpa [create_unique_temp_dir] using h
  · intro p t
    simp [candidateName]
  · intro f hall
    have h := createLoopDown_exhaust env.createDir env.tempRoot env.pid
      env.timestampNanos f hall 10
    exact ⟨h.1, h.2⟩
  · intro msg h
    have h2 : env.createDir (10 - 10) = .otherErr msg := by simpa using h
    have h3 := createLoopDown_other env.createDir env.tempRoot env.pid
      env.timestampNanos 10 msg h2
    simpa [create_unique_temp_dir] using h3
  · intro j hj hcoll hok
    exact createLoopDown_succeeds env.createDir env.tempRoot env.pid
      env.timestampNanos j hj hcoll hok 10 (by omega) (by omega)

/-- C5 witness: on the always-colliding oracle the loop fails after exactly
11 attempts with the final `AlreadyExists` error. -/
theorem C5_create_unique_temp_dir_witness :
    (create_unique_temp_dir envBusy).1 = .error (.ioErr "File exists (os error 17)") ∧
    (create_unique_temp_dir envBusy).2.length = 11 :=
  (C5_create_unique_temp_dir envBusy).2.1 (fun _ => "File exists (os error 17)")
    (fun _n => rfl)

/-- C6: with `timeout_seconds = 0` the engine never kills and simply waits
for the child to exit; with a positive timeout whose deadline passes, it
sends SIGKILL to the process group `-pid`, then kills and reaps the direct
child, and the request fails with a timeout error whose text embeds the
configured timeout and the stderr captured before the kill. -/
theorem C6_timeout_supervision (env : Env) (req : RunRequest) :
    (req.timeout_seconds = 0 →
      Event.killChild ∉ (do_run env req).2 ∧
      ∀ g, Event.sigkillGroup g ∉ (do_run env req).2) ∧
    (∀ ws cevs mevs, req.timeout_seconds = 0 →
      create_unique_temp_dir env = (.ok ws, cevs) →
      materialize env.mkdirAll env.writeFile ws req.files = (.ok (), mevs) →
      env.spawnResult = none →
      Event.waitChild ∈ (do_run env req).2) ∧
    (∀ ws cevs mevs, req.timeout_seconds > 0 → env.exitsInTime = false →
      0 < env.childPid →
      create_unique_temp_dir env = (.ok ws, cevs) →
      materialize env.mkdirAll env.writeFile ws req.files = (.ok (), mevs) →
      env.spawnResult = none →
      (do_run env req).2 =
        cevs ++ mevs ++ [Event.spawned (buildCommand req.command ws),
          .sigkillGroup (-(env.childPid : Int)), .killChild, .waitChild,
          .removeWorkspace ws env.removeOk] ∧
      (do_run env req).1 =
        .error (.timedOut req.timeout_seconds (lossyDecode env.stderrBytes)) ∧
      (run env req).error =
        "timed out after " ++ toString req.timeout_seconds ++ " seconds\n" ++
          lossyDecode env.stderrBytes) := by
  refine ⟨?_, ?_, ?_⟩
  · intro h0
    constructor
    · intro hmem
      have h := do_run_kill_only_timeout env req _ hmem (Or.inl rfl)
      omega
    · intro g hmem
      have h := do_run_kill_only_timeout env req _ hmem (Or.inr ⟨g, rfl⟩)
      omega
  · intro ws cevs mevs h0 hc hmat hsp
    rw [do_run_createOk env req ws cevs hc]
    dsimp only
    rw [runInner_ok_decomp env req ws mevs hmat hsp]
    dsimp only
    rw [superviseStage_zero env req h0, waitStage_events]
    simp
  · intro ws cevs mevs ht hex hcp hc hmat hsp
    have hdo := do_run_createOk env req ws cevs hc
    have hri := runInner_ok_decomp env req ws mevs hmat hsp
    have hsup := superviseStage_timeout env req ht hex hcp
    refine ⟨?_, ?_, ?_⟩
    · rw [hdo]
      dsimp only
      rw [hri]
      dsimp only
      rw [hsup]
      simp
    · rw [hdo]
      dsimp only
      rw [hri]
      dsimp only
      rw [hsup]
    · unfold run
      rw [hdo]
      dsimp only
      rw [hri]
      dsimp only
      rw [hsup]
      dsimp only
      rfl

/-- C6 witness: the hanging child under a 5-second timeout. -/
theorem C6_timeout_supervision_witness :
    (do_run envHang reqT).1 =
      .error (.timedOut 5 (lossyDecode [119])) ∧
    (run envHang reqT).error =
      "timed out after " ++ toString 5 ++ " seconds\n" ++ lossyDecode [119] := by
  have h := (C6_timeout_supervision envHang reqT).2.2 ["tmp", "runner-7-3"]
    [.mkdirAttempt ["tmp", "runner-7-3"]] [] (by decide) rfl (by decide) rfl rfl rfl
  exact ⟨h.2.1, h.2.2⟩

/-- C7 counterexample: the spawned command's standard input is left at the
spawn default, which is inherited from the parent process — not the
not-connected/closed configuration the claim states. -/
theorem C7_counterexample :
    (buildCommand "true" ["tmp", "w"]).stdinCfg = .inherit ∧
    StdioCfg.inherit ≠ StdioCfg.null :=
  ⟨rfl, by decide⟩

/-- C7 (amended): the spawned child runs `bash -lc <command>` with the
workspace as its current directory, in a new session, with stdout and stderr
each piped to the parent, and with stdin left at the spawn default
(inherited from the parent, not explicitly closed). -/
theorem C7_spawn_config (env : Env) (req : RunRequest) (ws : List String)
    (cevs mevs : List Event)
    (hc : create_unique_temp_dir env = (.ok ws, cevs))
    (hmat : materialize env.mkdirAll env.writeFile ws req.files = (.ok (), mevs))
    (hsp : env.spawnResult = none) :
    Event.spawned (buildCommand req.command ws) ∈ (do_run env req).2 ∧
    (buildCommand req.command ws).program = "bash" ∧
    (buildCommand req.command ws).args = ["-lc", req.command] ∧
    (buildCommand req.command ws).currentDir = some ws ∧
    (buildCommand req.command ws).stdoutCfg = .piped ∧
    (buildCommand req.command ws).stderrCfg = .piped ∧
    (buildCommand req.command ws).stdinCfg = .inherit ∧
    (buildCommand req.command ws).newSession = true := by
  refine ⟨?_, rfl, rfl, rfl, rfl, rfl, rfl, rfl⟩
  rw [do_run_createOk env req ws cevs hc]
  dsimp only
  rw [runInner_ok_decomp env req ws mevs hmat hsp]
  simp

/-- C7 witness at the all-success oracle. -/
theorem C7_spawn_config_witness :
    Event.spawned (buildCommand reqEmpty.command ["tmp", "runner-7-3"])
      ∈ (do_run envOk reqEmpty).2 :=
  (C7_spawn_config envOk reqEmpty ["tmp", "runner-7-3"]
    [.mkdirAttempt ["tmp", "runner-7-3"]] [] rfl rfl rfl).1

/-- C8: on the success path the result carries the lossy decoding of the
accumulated stdout and stderr bytes — for arbitrary byte sequences, so
non-UTF8 output never fails the request — and the lossy decoding of any
invalid byte sequence substitutes the replacement marker U+FFFD. -/
theorem C8_lossy_decoding :
    (∀ (env : Env) (req : RunRequest) (ws : List String) (cevs mevs : List Event),
      create_unique_temp_dir env = (.ok ws, cevs) →
      materialize env.mkdirAll env.writeFile ws req.files = (.ok (), mevs) →
      env.spawnResult = none → env.waitResult = none →
      (req.timeout_seconds > 0 → env.exitsInTime = true) →
      (do_run env req).1 = .ok { stdout := lossyDecode env.stdoutBytes
                                 stderr := lossyDecode env.stderrBytes }) ∧
    (∀ bs : List Nat, validUtf8 bs = false → repl ∈ (lossyDecode bs).data) := by
  constructor
  · intro env req ws cevs mevs hc hmat hsp hwt hex
    exact do_run_ok_result env req ws cevs mevs hc hmat hsp hwt hex
  · intro bs hv
    exact repl_mem_of_invalid bs hv

/-- C8 witness: a request whose stderr bytes are the invalid sequence
`[0xFF]` still succeeds, and its decoding contains U+FFFD. -/
theorem C8_lossy_decoding_witness :
    (do_run envOk reqEmpty).1 = .ok { stdout := lossyDecode [104, 105]
                                      stderr := lossyDecode [255] } ∧
    repl ∈ (lossyDecode [255]).data := by
  constructor
  · exact C8_lossy_decoding.1 envOk reqEmpty ["tmp", "runner-7-3"]
      [.mkdirAttempt ["tmp", "runner-7-3"]] [] rfl rfl rfl rfl (fun h => rfl)
  · exact C8_lossy_decoding.2 [255] (by simp [validUtf8])

/-- C9: after every invocation the handler appends the (request, response)
pair as exactly one newline-free JSON record to the log file and answers
HTTP 200; if the logging operation fails, the response is overwritten with a
failure carrying the logging error text and empty output fields, still with
HTTP 200. -/
theorem C9_handler_logging (he : HttpEnv) (logFile : List String)
    (req : RunRequest) :
    ((handle_run he logFile req).1.1 = 200) ∧
    (he.logOutcome = none →
      (handle_run he logFile req).2 =
        logFile ++ [renderLogEntry { request := req, response := run he.runEnv req }] ∧
      nlFree (renderLogEntry { request := req, response := run he.runEnv req }) ∧
      (handle_run he logFile req).1.2 = run he.runEnv req) ∧
    (∀ msg, he.logOutcome = some msg →
      (handle_run he logFile req).2 = logFile ∧
      (handle_run he logFile req).1.2 =
        { stdout := "", stderr := "", error := msg }) := by
  unfold handle_run log_entry
  rcases hl : he.logOutcome with _ | msg <;> dsimp only
  · exact ⟨rfl, fun _ => ⟨rfl, nlFree_renderLogEntry _, rfl⟩,
      fun msg h => Option.noConfusion h⟩
  · exact ⟨rfl, fun h => Option.noConfusion h,
      fun msg2 h => by
        have : msg = msg2 := by injection h
        subst this
        exact ⟨rfl, rfl⟩⟩

/-- C9 witness: a successful log append and a failing one. -/
theorem C9_handler_logging_witness :
    (handle_run httpOk [] reqEmpty).1.1 = 200 ∧
    (handle_run httpOk [] reqEmpty).2 =
      [renderLogEntry { request := reqEmpty, response := run httpOk.runEnv reqEmpty }] ∧
    (handle_run httpBad [] reqEmpty).1.2 =
      { stdout := "", stderr := ""
        error := "No space left on device (os error 28)" } := by
  have h1 := C9_handler_logging httpOk [] reqEmpty
  have h2 := C9_handler_logging httpBad [] reqEmpty
  exact ⟨h1.1, by simpa using (h1.2.1 rfl).1, (h2.2.2 _ rfl).2⟩

/-- C10: for every successfully spawned command that exits before the
deadline, the result is the success variant with empty error regardless of
the exit status: the status is discarded and no response field depends on
it. -/
theorem C10_exit_status_discarded (env : Env) (req : RunRequest)
    (ws : List String) (cevs mevs : List Event)
    (hc : create_unique_temp_dir env = (.ok ws, cevs))
    (hmat : materialize env.mkdirAll env.writeFile ws req.files = (.ok (), mevs))
    (hsp : env.spawnResult = none) (hwt : env.waitResult = none)
    (hex : req.timeout_seconds > 0 → env.exitsInTime = true) :
    run env req = { stdout := lossyDecode env.stdoutBytes
                    stderr := lossyDecode env.stderrBytes
                    error := "" } ∧
    (∀ k, run {env with exitStatus := k} req = run env req) := by
  constructor
  · unfold run
    rw [do_run_ok_result env req ws cevs mevs hc hmat hsp hwt hex]
  · intro k
    rfl

/-- C10 witness: the all-success oracle records exit status 2, yet the
response is the success shape with empty error. -/
theorem C10_exit_status_discarded_witness :
    envOk.exitStatus = 2 ∧
    run envOk reqEmpty = { stdout := lossyDecode [104, 105]
                           stderr := lossyDecode [255]
                           error := "" } := by
  have h := C10_exit_status_discarded envOk reqEmpty ["tmp", "runner-7-3"]
    [.mkdirAttempt ["tmp", "runner-7-3"]] [] rfl rfl rfl rfl (fun _ => rfl)
  exact ⟨rfl, h.1⟩

end Runner
